import Mathlib

set_option linter.unusedVariables false
set_option linter.unusedTactic false
set_option linter.unnecessarySimpa false

namespace TCPSpec

/-!
Shallow embedding of the educational TCP simulator (tcp_packet.py,
tcp_congestion.py, tcp_connection.py, tcp_simulator.py).  Python floats are
modelled as rationals where only field operations occur, and as real numbers
for the Cubic algorithm (whose `_update_k` takes a cube root).  Wall-clock
reads (`time.time()`) become explicit `now` parameters.  Randomness and the
HMAC-SHA256 cookie digest become explicit function parameters.
-/

/-! ## tcp_packet.py -/

/-- `TCPFlag` bit values. -/
def FLAG_FIN : Nat := 0x01
def FLAG_SYN : Nat := 0x02
def FLAG_RST : Nat := 0x04
def FLAG_PSH : Nat := 0x08
def FLAG_ACK : Nat := 0x10

/-- `TCPPacket` dataclass.  `data` is the byte payload. -/
structure TCPPacket where
  source_port : Nat
  dest_port : Nat
  seq_num : Nat
  ack_num : Nat
  flags : Nat
  window_size : Nat
  data : List Nat
  timestamp : ℚ
deriving DecidableEq, Repr

/-- `TCPPacket.has_flag`. -/
def TCPPacket.hasFlag (p : TCPPacket) (f : Nat) : Bool :=
  (p.flags &&& f) != 0

/-- `TCPPacket.get_size`: 20-byte header plus payload. -/
def TCPPacket.getSize (p : TCPPacket) : Nat := 20 + p.data.length

/-! ## tcp_congestion.py -/

/-- The `congestion_state` strings. -/
inductive CPhase
  | slow_start
  | congestion_avoidance
  | fast_recovery
deriving DecidableEq, Repr

/-- The `loss_type` argument of `on_packet_loss`. -/
inductive LossType
  | timeout
  | fast_retransmit
deriving DecidableEq, Repr

/-- State of `RenoAlgorithm`. -/
structure RenoState where
  congestion_window : ℚ
  ssthresh : ℚ
  congestion_state : CPhase
  initial_ssthresh : ℚ
  ssthresh_lowered : Bool
deriving DecidableEq, Repr

/-- `RenoAlgorithm.__init__`. -/
def renoInit : RenoState :=
  { congestion_window := 1, ssthresh := 16, congestion_state := .slow_start,
    initial_ssthresh := 16, ssthresh_lowered := false }

/-- `RenoAlgorithm.on_ack_received`. -/
def renoOnAck (s : RenoState) : RenoState :=
  match s.congestion_state with
  | .slow_start =>
      let cw := s.congestion_window + 1
      if s.ssthresh ≤ cw then
        { s with congestion_window := cw, congestion_state := .congestion_avoidance }
      else
        { s with congestion_window := cw }
  | .congestion_avoidance =>
      { s with congestion_window := s.congestion_window + 1 / s.congestion_window }
  | .fast_recovery => s

/-- `RenoAlgorithm.on_packet_loss`. -/
def renoOnLoss (lt : LossType) (s : RenoState) : RenoState :=
  match lt with
  | .timeout =>
      let newSs := max 2 (s.congestion_window / 2)
      let ss := if s.ssthresh_lowered then min s.ssthresh newSs else newSs
      { s with ssthresh := ss, ssthresh_lowered := true,
               congestion_window := 1, congestion_state := .slow_start }
  | .fast_retransmit =>
      let newSs := max 2 (s.congestion_window / 2)
      let ss := if s.ssthresh_lowered then min s.ssthresh newSs else newSs
      { s with ssthresh := ss, ssthresh_lowered := true,
               congestion_window := ss + 3, congestion_state := .fast_recovery }

/-- `RenoAlgorithm.on_fast_recovery_exit`. -/
def renoExit (s : RenoState) : RenoState :=
  { s with congestion_window := s.ssthresh, congestion_state := .congestion_avoidance }

/-- State of `NewRenoAlgorithm`. -/
structure NewRenoState where
  congestion_window : ℚ
  ssthresh : ℚ
  congestion_state : CPhase
  recover : Nat
deriving DecidableEq, Repr

/-- `NewRenoAlgorithm.__init__`. -/
def newRenoInit : NewRenoState :=
  { congestion_window := 1, ssthresh := 16, congestion_state := .slow_start, recover := 0 }

/-- `NewRenoAlgorithm.on_ack_received`. -/
def newRenoOnAck (isPartialAck isFullAck : Bool) (s : NewRenoState) : NewRenoState :=
  match s.congestion_state with
  | .slow_start =>
      let cw := s.congestion_window + 1
      if s.ssthresh ≤ cw then
        { s with congestion_window := cw, congestion_state := .congestion_avoidance }
      else
        { s with congestion_window := cw }
  | .congestion_avoidance =>
      { s with congestion_window := s.congestion_window + 1 / s.congestion_window }
  | .fast_recovery =>
      if isPartialAck then
        { s with congestion_window := s.congestion_window + 1 }
      else if isFullAck then
        { s with congestion_window := s.ssthresh, congestion_state := .congestion_avoidance }
      else s

/-- `NewRenoAlgorithm.on_packet_loss`. -/
def newRenoOnLoss (lt : LossType) (s : NewRenoState) : NewRenoState :=
  match lt with
  | .timeout =>
      { s with ssthresh := max 2 (s.congestion_window / 2),
               congestion_window := 1, congestion_state := .slow_start }
  | .fast_retransmit =>
      let ss := max 2 (s.congestion_window / 2)
      { s with ssthresh := ss, congestion_window := ss + 3,
               congestion_state := .fast_recovery }

/-- `NewRenoAlgorithm.on_fast_recovery_exit`. -/
def newRenoExit (s : NewRenoState) : NewRenoState :=
  { s with congestion_window := s.ssthresh, congestion_state := .congestion_avoidance }

/-- State of `CubicAlgorithm`; the cube root in `_update_k` forces real numbers. -/
structure CubicState where
  congestion_window : ℝ
  ssthresh : ℝ
  congestion_state : CPhase
  c : ℝ
  beta : ℝ
  w_max : ℝ
  k : ℝ
  epoch_start : ℝ

/-- `CubicAlgorithm.__init__`. -/
noncomputable def cubicInit : CubicState :=
  { congestion_window := 1, ssthresh := 16, congestion_state := .slow_start,
    c := 0.4, beta := 0.7, w_max := 0, k := 0, epoch_start := 0 }

/-- `CubicAlgorithm._cubic_cwnd`. -/
noncomputable def cubicCwndTarget (s : CubicState) (t : ℝ) : ℝ :=
  if s.w_max ≤ 0 then s.ssthresh else s.c * (t - s.k) ^ (3 : ℕ) + s.w_max

/-- `CubicAlgorithm._update_k`. -/
noncomputable def cubicUpdateK (s : CubicState) : CubicState :=
  if s.w_max ≤ 0 then { s with k := 0 }
  else { s with k := ((s.w_max * (1 - s.beta)) / s.c) ^ ((1 : ℝ) / 3) }

/-- `CubicAlgorithm.on_ack_received` (`now` models `time.time()`). -/
noncomputable def cubicOnAck (now : ℝ) (s : CubicState) : CubicState :=
  match s.congestion_state with
  | .slow_start =>
      let cw := s.congestion_window + 1
      if s.ssthresh ≤ cw then
        cubicUpdateK { s with congestion_window := cw,
                              congestion_state := .congestion_avoidance,
                              w_max := cw, epoch_start := now }
      else
        { s with congestion_window := cw }
  | .congestion_avoidance =>
      let t := now - s.epoch_start
      let target := cubicCwndTarget s t
      if s.congestion_window < target then
        let cw := min target
          (s.congestion_window + (target - s.congestion_window) / s.congestion_window)
        { s with congestion_window := cw }
      else
        { s with congestion_window := s.congestion_window + 0.1 / s.congestion_window }
  | .fast_recovery => s

/-- `CubicAlgorithm.on_packet_loss`. -/
noncomputable def cubicOnLoss (lt : LossType) (now : ℝ) (s : CubicState) : CubicState :=
  match lt with
  | .timeout =>
      { s with w_max := s.congestion_window,
               ssthresh := max 2 (s.congestion_window * s.beta),
               congestion_window := 1, congestion_state := .slow_start }
  | .fast_retransmit =>
      cubicUpdateK
        { s with w_max := s.congestion_window,
                 ssthresh := max 2 (s.congestion_window * s.beta),
                 congestion_window := s.congestion_window * s.beta,
                 congestion_state := .fast_recovery, epoch_start := now }

/-- `CubicAlgorithm.on_fast_recovery_exit`. -/
noncomputable def cubicExit (now : ℝ) (s : CubicState) : CubicState :=
  cubicUpdateK { s with congestion_state := .congestion_avoidance, epoch_start := now }

/-- The `bbr_state` strings of `BBRAlgorithm`. -/
inductive BBRPhase
  | STARTUP
  | DRAIN
  | PROBE_BW
  | PROBE_RTT
deriving DecidableEq, Repr

/-- State of `BBRAlgorithm`; `rtt_min = none` models `float('inf')`. -/
structure BBRState where
  congestion_window : ℚ
  ssthresh : ℚ
  congestion_state : CPhase
  bw_estimate : ℚ
  rtt_min : Option ℚ
  pacing_gain : ℚ
  cwnd_gain : ℚ
  bbr_state : BBRPhase
  rt_prop : ℚ
deriving DecidableEq, Repr

/-- `BBRAlgorithm.__init__`. -/
def bbrInit : BBRState :=
  { congestion_window := 1, ssthresh := 16, congestion_state := .slow_start,
    bw_estimate := 0, rtt_min := none, pacing_gain := 5/4, cwnd_gain := 2,
    bbr_state := .STARTUP, rt_prop := 0 }

/-- `BBRAlgorithm.on_ack_received`. -/
def bbrOnAck (rtt : Option ℚ) (s : BBRState) : BBRState :=
  let s :=
    match rtt with
    | none => s
    | some r =>
        match s.rtt_min with
        | none => { s with rtt_min := some r, rt_prop := r }
        | some m => if r < m then { s with rtt_min := some r, rt_prop := r } else s
  match s.bbr_state with
  | .STARTUP =>
      let cw := s.congestion_window + 1
      if s.ssthresh ≤ cw then
        { s with congestion_window := cw, bbr_state := .DRAIN,
                 congestion_state := .congestion_avoidance }
      else
        { s with congestion_window := cw }
  | .DRAIN =>
      if s.ssthresh < s.congestion_window then
        { s with congestion_window := max s.ssthresh (s.congestion_window - 1/2) }
      else
        { s with bbr_state := .PROBE_BW }
  | .PROBE_BW =>
      { s with congestion_window := s.congestion_window + (1/10) / s.congestion_window,
               congestion_state := .congestion_avoidance }
  | .PROBE_RTT =>
      if 4 < s.congestion_window then
        { s with congestion_window := max 4 (s.congestion_window - 1/2) }
      else
        { s with bbr_state := .PROBE_BW }

/-- `BBRAlgorithm.on_packet_loss`. -/
def bbrOnLoss (lt : LossType) (s : BBRState) : BBRState :=
  match lt with
  | .timeout =>
      { s with ssthresh := max 2 (s.congestion_window / 2),
               congestion_window := max 4 (s.congestion_window * (1/2)) }
  | .fast_retransmit =>
      { s with ssthresh := max 2 (s.congestion_window * (7/8)),
               congestion_window := s.congestion_window * (7/8) }

/-- `BBRAlgorithm.on_fast_recovery_exit`. -/
def bbrExit (s : BBRState) : BBRState :=
  { s with congestion_state := .congestion_avoidance }

/-! ### Operation sequences over the four algorithms (for the invariant claims) -/

/-- One external call to a `RenoAlgorithm`. -/
inductive RenoOp
  | ack
  | loss (lt : LossType)
  | frExit

def renoStep (op : RenoOp) (s : RenoState) : RenoState :=
  match op with
  | .ack => renoOnAck s
  | .loss lt => renoOnLoss lt s
  | .frExit => renoExit s

def renoRun (ops : List RenoOp) : RenoState :=
  ops.foldl (fun s op => renoStep op s) renoInit

/-- One external call to a `NewRenoAlgorithm`. -/
inductive NewRenoOp
  | ack (isPartialAck isFullAck : Bool)
  | loss (lt : LossType)
  | frExit

def newRenoStep (op : NewRenoOp) (s : NewRenoState) : NewRenoState :=
  match op with
  | .ack p f => newRenoOnAck p f s
  | .loss lt => newRenoOnLoss lt s
  | .frExit => newRenoExit s

def newRenoRun (ops : List NewRenoOp) : NewRenoState :=
  ops.foldl (fun s op => newRenoStep op s) newRenoInit

/-- One external call to a `CubicAlgorithm`; each carries the clock value. -/
inductive CubicOp
  | ack (now : ℝ)
  | loss (lt : LossType) (now : ℝ)
  | frExit (now : ℝ)

noncomputable def cubicStep (op : CubicOp) (s : CubicState) : CubicState :=
  match op with
  | .ack now => cubicOnAck now s
  | .loss lt now => cubicOnLoss lt now s
  | .frExit now => cubicExit now s

noncomputable def cubicRun (ops : List CubicOp) : CubicState :=
  ops.foldl (fun s op => cubicStep op s) cubicInit

/-- One external call to a `BBRAlgorithm`. -/
inductive BBROp
  | ack (rtt : Option ℚ)
  | loss (lt : LossType)
  | frExit

def bbrStep (op : BBROp) (s : BBRState) : BBRState :=
  match op with
  | .ack rtt => bbrOnAck rtt s
  | .loss lt => bbrOnLoss lt s
  | .frExit => bbrExit s

def bbrRun (ops : List BBROp) : BBRState :=
  ops.foldl (fun s op => bbrStep op s) bbrInit

/-! ### Invariant lemmas for the congestion algorithms -/

lemma renoStep_inv (op : RenoOp) (s : RenoState)
    (hc : 1 ≤ s.congestion_window) (hs : 2 ≤ s.ssthresh) :
    1 ≤ (renoStep op s).congestion_window ∧ 2 ≤ (renoStep op s).ssthresh := by
  have hpos : 0 < s.congestion_window := lt_of_lt_of_le one_pos hc
  have hinv : 0 ≤ s.congestion_window⁻¹ := by positivity
  have h2max : (2 : ℚ) ≤ max 2 (s.congestion_window / 2) := le_max_left _ _
  have hss : (2 : ℚ) ≤
      (if s.ssthresh_lowered then min s.ssthresh (max 2 (s.congestion_window / 2))
       else max 2 (s.congestion_window / 2)) := by
    split
    · exact le_min hs h2max
    · exact h2max
  cases op with
  | ack =>
      cases h : s.congestion_state <;> simp only [renoStep, renoOnAck, h]
      · split <;> exact ⟨by (try dsimp only); linarith, by (try dsimp only); linarith⟩
      · refine ⟨?_, by (try dsimp only); linarith⟩
        dsimp only
        rw [one_div]
        linarith
      · exact ⟨hc, hs⟩
  | loss lt =>
      cases lt <;> simp only [renoStep, renoOnLoss] <;>
        exact ⟨by (try dsimp only); linarith, by (try dsimp only); exact hss⟩
  | frExit =>
      simp only [renoStep, renoExit]
      exact ⟨by (try dsimp only); linarith, by (try dsimp only); exact hs⟩

lemma renoRun_inv (ops : List RenoOp) :
    ∀ s : RenoState, 1 ≤ s.congestion_window → 2 ≤ s.ssthresh →
      1 ≤ (ops.foldl (fun s op => renoStep op s) s).congestion_window ∧
      2 ≤ (ops.foldl (fun s op => renoStep op s) s).ssthresh := by
  induction ops with
  | nil => intro s hc hs; simpa using ⟨hc, hs⟩
  | cons op rest ih =>
      intro s hc hs
      have h := renoStep_inv op s hc hs
      simpa using ih (renoStep op s) h.1 h.2

lemma newRenoStep_inv (op : NewRenoOp) (s : NewRenoState)
    (hc : 1 ≤ s.congestion_window) (hs : 2 ≤ s.ssthresh) :
    1 ≤ (newRenoStep op s).congestion_window ∧ 2 ≤ (newRenoStep op s).ssthresh := by
  have hpos : 0 < s.congestion_window := lt_of_lt_of_le one_pos hc
  have hinv : 0 ≤ s.congestion_window⁻¹ := by positivity
  have h2max : (2 : ℚ) ≤ max 2 (s.congestion_window / 2) := le_max_left _ _
  cases op with
  | ack p f =>
      cases h : s.congestion_state <;>
        simp only [newRenoStep, newRenoOnAck, h]
      · split <;> exact ⟨by (try dsimp only); linarith, by (try dsimp only); linarith⟩
      · refine ⟨?_, by (try dsimp only); linarith⟩
        dsimp only
        rw [one_div]
        linarith
      · split
        · exact ⟨by (try dsimp only); linarith, by (try dsimp only); linarith⟩
        · split
          · exact ⟨by (try dsimp only); linarith, by (try dsimp only); linarith⟩
          · exact ⟨hc, hs⟩
  | loss lt =>
      cases lt <;> simp only [newRenoStep, newRenoOnLoss] <;>
        exact ⟨by (try dsimp only); linarith, by (try dsimp only); linarith⟩
  | frExit =>
      simp only [newRenoStep, newRenoExit]
      exact ⟨by (try dsimp only); linarith, by (try dsimp only); exact hs⟩

lemma newRenoRun_inv (ops : List NewRenoOp) :
    ∀ s : NewRenoState, 1 ≤ s.congestion_window → 2 ≤ s.ssthresh →
      1 ≤ (ops.foldl (fun s op => newRenoStep op s) s).congestion_window ∧
      2 ≤ (ops.foldl (fun s op => newRenoStep op s) s).ssthresh := by
  induction ops with
  | nil => intro s hc hs; simpa using ⟨hc, hs⟩
  | cons op rest ih =>
      intro s hc hs
      have h := newRenoStep_inv op s hc hs
      simpa using ih (newRenoStep op s) h.1 h.2

lemma cubicUpdateK_ssthresh (s : CubicState) : (cubicUpdateK s).ssthresh = s.ssthresh := by
  unfold cubicUpdateK; split <;> rfl

lemma cubicStep_ssthresh (op : CubicOp) (s : CubicState) (hs : 2 ≤ s.ssthresh) :
    2 ≤ (cubicStep op s).ssthresh := by
  cases op with
  | ack now =>
      cases h : s.congestion_state <;> simp only [cubicStep, cubicOnAck, h]
      · split
        · rw [cubicUpdateK_ssthresh]; dsimp only; exact hs
        · (try dsimp only); exact hs
      · split <;> (try dsimp only) <;> exact hs
      · exact hs
  | loss lt now =>
      cases lt <;> simp only [cubicStep, cubicOnLoss]
      · (try dsimp only); exact le_max_left _ _
      · rw [cubicUpdateK_ssthresh]
        dsimp only
        exact le_max_left _ _
  | frExit now =>
      simp only [cubicStep, cubicExit]
      rw [cubicUpdateK_ssthresh]
      dsimp only
      exact hs

lemma cubicRun_ssthresh (ops : List CubicOp) :
    ∀ s : CubicState, 2 ≤ s.ssthresh →
      2 ≤ (ops.foldl (fun s op => cubicStep op s) s).ssthresh := by
  induction ops with
  | nil => intro s hs; simpa using hs
  | cons op rest ih =>
      intro s hs
      simpa using ih (cubicStep op s) (cubicStep_ssthresh op s hs)

lemma bbrOnAck_ssthresh (rtt : Option ℚ) (s : BBRState) :
    (bbrOnAck rtt s).ssthresh = s.ssthresh := by
  unfold bbrOnAck
  rcases rtt with _ | r
  · cases h : s.bbr_state <;> simp [h] <;> split <;> rfl
  · rcases hm : s.rtt_min with _ | m
    · cases h : s.bbr_state <;> simp [h, hm] <;> split <;> rfl
    · by_cases hr : r < m <;>
        cases h : s.bbr_state <;> simp [h, hm, hr] <;> split <;> rfl

lemma bbrStep_ssthresh (op : BBROp) (s : BBRState) (hs : 2 ≤ s.ssthresh) :
    2 ≤ (bbrStep op s).ssthresh := by
  cases op with
  | ack rtt => rw [bbrStep, bbrOnAck_ssthresh]; exact hs
  | loss lt =>
      cases lt <;> simp only [bbrStep, bbrOnLoss]
      · simpa using le_max_left (2 : ℚ) (s.congestion_window / 2)
      · simpa using le_max_left (2 : ℚ) (s.congestion_window * (7/8))
  | frExit => simpa [bbrStep, bbrExit] using hs

lemma bbrRun_ssthresh (ops : List BBROp) :
    ∀ s : BBRState, 2 ≤ s.ssthresh →
      2 ≤ (ops.foldl (fun s op => bbrStep op s) s).ssthresh := by
  induction ops with
  | nil => intro s hs; simpa using hs
  | cons op rest ih =>
      intro s hs
      simpa using ih (bbrStep op s) (bbrStep_ssthresh op s hs)

/-! ### Claim C1 -/

/-- Claim C1 (corrected).  Starting from the initial state
(`cwnd = 1, ssthresh = 16, slow_start`), after every finite sequence of calls:
for Reno and NewReno both `cwnd ≥ 1` and `ssthresh ≥ 2` hold; for Cubic and BBR
`ssthresh ≥ 2` holds (their fast-retransmit handlers multiply `cwnd` by `0.7`
resp. `0.875`, which can drop `cwnd` below 1). -/
theorem c1_congestion_invariants :
    (∀ ops : List RenoOp,
        1 ≤ (renoRun ops).congestion_window ∧ 2 ≤ (renoRun ops).ssthresh) ∧
    (∀ ops : List NewRenoOp,
        1 ≤ (newRenoRun ops).congestion_window ∧ 2 ≤ (newRenoRun ops).ssthresh) ∧
    (∀ ops : List CubicOp, 2 ≤ (cubicRun ops).ssthresh) ∧
    (∀ ops : List BBROp, 2 ≤ (bbrRun ops).ssthresh) := by
  refine ⟨fun ops => ?_, fun ops => ?_, fun ops => ?_, fun ops => ?_⟩
  · exact renoRun_inv ops renoInit (by norm_num [renoInit]) (by norm_num [renoInit])
  · exact newRenoRun_inv ops newRenoInit (by norm_num [newRenoInit]) (by norm_num [newRenoInit])
  · exact cubicRun_ssthresh ops cubicInit (by norm_num [cubicInit])
  · exact bbrRun_ssthresh ops bbrInit (by norm_num [bbrInit])

/-- Claim C1 counterexample: a single `on_packet_loss("fast_retransmit")` on a
fresh Cubic instance leaves `cwnd = 1 * 0.7 < 1`, violating `cwnd ≥ 1`. -/
theorem c1_counterexample :
    (cubicRun [CubicOp.loss LossType.fast_retransmit 0]).congestion_window < 1 := by
  show (cubicStep (CubicOp.loss LossType.fast_retransmit 0) cubicInit).congestion_window < 1
  simp only [cubicStep, cubicOnLoss, cubicUpdateK, cubicInit]
  split <;> norm_num

/-! ### Claim C5 -/

/-- Claim C5 (confirmed).  For Reno: `on_ack_received` never changes `ssthresh`;
once `ssthresh_lowered` is latched, every operation keeps the latch and yields
`ssthresh` no larger than before; the first `on_packet_loss` (latch clear) sets
`ssthresh = max 2 (cwnd / 2)` and sets the latch. -/
theorem c5_reno_ssthresh_monotone :
    (∀ s : RenoState, (renoOnAck s).ssthresh = s.ssthresh) ∧
    (∀ (s : RenoState) (op : RenoOp), s.ssthresh_lowered = true →
        (renoStep op s).ssthresh ≤ s.ssthresh ∧
        (renoStep op s).ssthresh_lowered = true) ∧
    (∀ (s : RenoState) (lt : LossType), s.ssthresh_lowered = false →
        (renoOnLoss lt s).ssthresh = max 2 (s.congestion_window / 2) ∧
        (renoOnLoss lt s).ssthresh_lowered = true) := by
  refine ⟨?_, ?_, ?_⟩
  · intro s
    unfold renoOnAck
    cases h : s.congestion_state <;> simp
    split <;> rfl
  · intro s op hlow
    cases op with
    | ack =>
        have hss : (renoStep RenoOp.ack s).ssthresh = s.ssthresh := by
          simp only [renoStep]
          unfold renoOnAck
          cases h : s.congestion_state <;> simp
          split <;> rfl
        have hlw : (renoStep RenoOp.ack s).ssthresh_lowered = true := by
          simp only [renoStep]
          unfold renoOnAck
          cases h : s.congestion_state <;> simp [hlow]
          split <;> simp [hlow]
        exact ⟨le_of_eq hss, hlw⟩
    | loss lt =>
        cases lt <;> simp only [renoStep, renoOnLoss, hlow, if_true] <;>
          exact ⟨by simpa using min_le_left _ _, by simp⟩
    | frExit => exact ⟨by simp [renoStep, renoExit], by simp [renoStep, renoExit, hlow]⟩
  · intro s lt hlow
    cases lt <;> simp [renoOnLoss, hlow]

/-- Claim C5 witness: the monotone-latch and first-reduction parts applied at
concrete Reno states. -/
theorem c5_witness :
    ((renoStep (RenoOp.loss LossType.timeout)
        { congestion_window := 10, ssthresh := 5, congestion_state := .congestion_avoidance,
          initial_ssthresh := 16, ssthresh_lowered := true }).ssthresh ≤ 5) ∧
    ((renoOnLoss LossType.fast_retransmit
        { congestion_window := 10, ssthresh := 16, congestion_state := .slow_start,
          initial_ssthresh := 16, ssthresh_lowered := false }).ssthresh
      = max 2 ((10 : ℚ) / 2)) :=
  ⟨(c5_reno_ssthresh_monotone.2.1 _ (RenoOp.loss LossType.timeout) rfl).1,
   (c5_reno_ssthresh_monotone.2.2 _ LossType.fast_retransmit rfl).1⟩

/-! ## tcp_connection.py -/

/-- `TCPState` enum. -/
inductive TCPState
  | CLOSED
  | LISTEN
  | SYN_SENT
  | SYN_RECEIVED
  | ESTABLISHED
  | FIN_WAIT_1
  | FIN_WAIT_2
  | CLOSE_WAIT
  | CLOSING
  | LAST_ACK
  | TIME_WAIT
deriving DecidableEq, Repr

/-- Python `int(x)` applied to a float: truncation toward zero. -/
def pyInt (q : ℚ) : ℤ := if q < 0 then ⌈q⌉ else ⌊q⌋

/-- The RFC 6298 estimator variables.  In the source `srtt` and `rttvar` are
two fields that are always both `None` or both set; they are modelled as one
optional pair. -/
structure RtoState where
  srtt_rttvar : Option (ℚ × ℚ)
  rto : ℚ
deriving DecidableEq, Repr

/-- Estimator fields of `TCPConnection.__init__`: `rto = 3.0`, no sample yet. -/
def rtoInit : RtoState := { srtt_rttvar := none, rto := 3 }

/-- `TCPConnection._update_rto`: `rttvar` is updated first with the old `srtt`
(β = 1/4), then `srtt` (α = 1/8), then `rto = srtt + max(1, 4·rttvar)`. -/
def rtoStep (st : RtoState) (sample : ℚ) : RtoState :=
  if sample ≤ 0 then st
  else
    let sv :=
      match st.srtt_rttvar with
      | none => (sample, sample / 2)
      | some (sr, rv) =>
          ((1 - 1/8) * sr + (1/8) * sample,
           (1 - 1/4) * rv + (1/4) * |sr - sample|)
    { srtt_rttvar := some sv, rto := sv.1 + max 1 (4 * sv.2) }

/-- Folding the estimator over a list of samples from the initial state. -/
def rtoRun (samples : List ℚ) : RtoState := samples.foldl rtoStep rtoInit

/-- The polymorphic `CongestionAlgorithm` interface as `TCPConnection` uses it:
a state type `σ`, the three mutating calls, and projections giving the
`(cwnd, ssthresh, state)` triple each call returns. -/
structure CongAlg (σ : Type) where
  cwnd : σ → ℚ
  ssthresh : σ → ℚ
  phase : σ → CPhase
  onAck : σ → σ
  onLoss : LossType → σ → σ
  onExit : σ → σ

/-- `create_algorithm("Reno")` viewed through the interface;
`on_ack_received` is invoked by the connection with default arguments. -/
def renoCA : CongAlg RenoState :=
  { cwnd := fun s => s.congestion_window, ssthresh := fun s => s.ssthresh,
    phase := fun s => s.congestion_state,
    onAck := renoOnAck, onLoss := renoOnLoss, onExit := renoExit }

/-- One record of the `unacked_packets` list (a Python dict per entry). -/
structure UnackedEntry where
  packet : TCPPacket
  send_time : ℚ
  retransmit_count : Nat
  base_rto : ℚ
  first_send_time : Option ℚ
deriving DecidableEq, Repr

/-- The `'type'` discriminator of handshake entries. -/
inductive HsType
  | syn
  | syn_ack
deriving DecidableEq, Repr

/-- One record of the `handshake_unacked` list. -/
structure HandshakeEntry where
  packet : TCPPacket
  send_time : ℚ
  retransmit_count : Nat
  hs_type : HsType
  cookie : Option Nat
  base_rto : ℚ
deriving DecidableEq, Repr

/-- `TCPConnection` state.  The `duplicate_ack_count` dict is a total map with
default 0 (`dict.get(k, 0)`); `cb_*` flags record which optional callbacks are
attached (their presence is tested before each callback invocation, and the
`on_metric_change` test also gates the mirror sync in `set_state`). -/
structure ConnState (σ : Type) where
  local_port : Nat
  remote_port : Nat
  seq_num : Nat
  ack_num : Nat
  remote_seq_num : Nat
  remote_ack_num : Nat
  state : TCPState
  send_window : Nat
  receive_window : Nat
  alg : σ
  congestion_window : ℚ
  ssthresh : ℚ
  congestion_state : CPhase
  send_buffer : List (List Nat)
  receive_buffer : List (List Nat)
  min_pacing_interval : ℚ
  last_paced_send_time : ℚ
  unacked_packets : List UnackedEntry
  handshake_unacked : List HandshakeEntry
  cookie_secret : Nat
  cookie_time_step : Nat
  rto : ℚ
  handshake_rto : ℚ
  srtt_rttvar : Option (ℚ × ℚ)
  duplicate_ack_count : Nat → Nat
  last_ack_num : Nat
  cb_state_change : Bool
  cb_packet_sent : Bool
  cb_packet_received : Bool
  cb_metric_change : Bool
  cb_retransmit_needed : Bool
  stats_packets_sent : Nat
  stats_packets_received : Nat
  stats_bytes_sent : Nat
  stats_bytes_received : Nat
  stats_retransmissions : Nat
  stats_duplicate_acks : Nat

/-- Metric names passed to `on_metric_change`. -/
inductive MetricName
  | cwnd
  | ssthresh
  | rto_event
  | fast_retx_event
deriving DecidableEq, Repr

/-- Callback invocations a connection performs, in order. -/
inductive ConnEvent
  | stateChange (a b : TCPState)
  | packetSent (p : TCPPacket)
  | packetReceived (p : TCPPacket)
  | metric (name : MetricName) (value : ℚ) (t : ℚ)
  | retransmitNeeded (p : TCPPacket)
deriving DecidableEq, Repr

/-- `TCPConnection.set_state`.  The cwnd/ssthresh mirror sync on entering
ESTABLISHED happens only when `on_metric_change` is attached (source lines
109-115). -/
def setState {σ : Type} (A : CongAlg σ) (now : ℚ) (newState : TCPState)
    (s : ConnState σ) : ConnState σ × List ConnEvent :=
  if s.state = newState then (s, [])
  else
    let oldState := s.state
    let s := { s with state := newState }
    let evs := if s.cb_state_change then [ConnEvent.stateChange oldState newState] else []
    if newState = TCPState.ESTABLISHED ∧ s.cb_metric_change = true then
      let s := { s with congestion_window := A.cwnd s.alg, ssthresh := A.ssthresh s.alg,
                        congestion_state := A.phase s.alg }
      (s, evs ++ [ConnEvent.metric .cwnd s.congestion_window now,
                  ConnEvent.metric .ssthresh s.ssthresh now])
    else (s, evs)

/-- `TCPConnection.send_packet`. -/
def sendPacket {σ : Type} (now : ℚ) (p : TCPPacket) (isRetransmit : Bool)
    (s : ConnState σ) : TCPPacket × ConnState σ × List ConnEvent :=
  let p := { p with source_port := s.local_port, dest_port := s.remote_port,
                    window_size := s.receive_window }
  let s := if isRetransmit then
      { s with stats_retransmissions := s.stats_retransmissions + 1 } else s
  let s := { s with stats_packets_sent := s.stats_packets_sent + 1,
                    stats_bytes_sent := s.stats_bytes_sent + p.getSize }
  let evs := if s.cb_packet_sent then [ConnEvent.packetSent p] else []
  (p, s, evs)

/-- `TCPConnection._create_packet`. -/
def createPacket {σ : Type} (now : ℚ) (flags : Nat) (d : List Nat)
    (s : ConnState σ) : TCPPacket × ConnState σ :=
  let p : TCPPacket :=
    { source_port := s.local_port, dest_port := s.remote_port, seq_num := s.seq_num,
      ack_num := s.ack_num, flags := flags, window_size := s.receive_window,
      data := d, timestamp := now }
  if p.hasFlag FLAG_SYN || p.hasFlag FLAG_FIN then
    (p, { s with seq_num := s.seq_num + 1 })
  else if 0 < d.length then
    (p, { s with seq_num := s.seq_num + d.length })
  else (p, s)

/-- `TCPConnection._packet_end_seq`. -/
def packetEndSeq (p : TCPPacket) : Nat :=
  p.seq_num + p.data.length + (if p.hasFlag FLAG_SYN || p.hasFlag FLAG_FIN then 1 else 0)

/-- The HMAC-SHA256 digest truncated to 32 bits, of
`"{client_isn}:{src_port}:{dst_port}:{time_slot}"` keyed by the connection
secret, kept abstract.  Arguments: secret, client_isn, src_port, dst_port,
time_slot. -/
def HashFn : Type := Nat → Nat → Nat → Nat → ℤ → Nat

/-- `TCPConnection._cookie_time_slot` at clock value `now`. -/
def cookieTimeSlot {σ : Type} (s : ConnState σ) (now : ℚ) : ℤ :=
  ⌊now / (s.cookie_time_step : ℚ)⌋

/-- `TCPConnection._generate_syn_cookie` with an explicit time slot. -/
def generateSynCookie {σ : Type} (H : HashFn) (s : ConnState σ)
    (clientIsn srcPort dstPort : Nat) (timeSlot : ℤ) : Nat :=
  H s.cookie_secret clientIsn srcPort dstPort timeSlot

/-- `TCPConnection._validate_syn_cookie`: accept the current or previous slot. -/
def validateSynCookie {σ : Type} (H : HashFn) (now : ℚ) (s : ConnState σ)
    (cookie : ℤ) (clientIsn srcPort dstPort : Nat) : Bool :=
  let curr := cookieTimeSlot s now
  if cookie = (generateSynCookie H s clientIsn srcPort dstPort curr : ℤ) then true
  else if cookie = (generateSynCookie H s clientIsn srcPort dstPort (curr - 1) : ℤ) then true
  else false

/-- `_update_rto` acting on the connection fields. -/
def connUpdateRto {σ : Type} (sample : ℚ) (s : ConnState σ) : ConnState σ :=
  let st := rtoStep { srtt_rttvar := s.srtt_rttvar, rto := s.rto } sample
  { s with srtt_rttvar := st.srtt_rttvar, rto := st.rto }

/-- `TCPConnection.send_data`. -/
def sendData {σ : Type} (A : CongAlg σ) (now : ℚ) (d : List Nat)
    (s : ConnState σ) : Option TCPPacket × ConnState σ × List ConnEvent :=
  if s.state ≠ TCPState.ESTABLISHED then (none, s, [])
  else if pyInt s.congestion_window ≤ (s.unacked_packets.length : ℤ) then
    (none, { s with send_buffer := s.send_buffer ++ [d] }, [])
  else
    let cp := createPacket now (FLAG_PSH ||| FLAG_ACK) d s
    let p := cp.1
    let s := cp.2
    let e : UnackedEntry := { packet := p, send_time := now, retransmit_count := 0,
                              base_rto := s.rto, first_send_time := some now }
    let s := { s with unacked_packets := s.unacked_packets ++ [e] }
    let evs := if s.cb_metric_change then
        [ConnEvent.metric .cwnd s.congestion_window now,
         ConnEvent.metric .ssthresh s.ssthresh now] else []
    let out := sendPacket now p false s
    (some out.1, out.2.1, evs ++ out.2.2)

/-- The cumulative-removal loop of `handle_ack` (source lines 477-488): keep
entries with `end_seq > ack_num`; each removed entry with a recorded
`first_send_time` feeds `now - first_send_time` to the RTO estimator. -/
def removeAcked {σ : Type} (now : ℚ) (ackNum : Nat) :
    List UnackedEntry → ConnState σ → List UnackedEntry × ConnState σ
  | [], s => ([], s)
  | e :: rest, s =>
      if ackNum < packetEndSeq e.packet then
        let ra := removeAcked now ackNum rest s
        (e :: ra.1, ra.2)
      else
        let s :=
          match e.first_send_time with
          | some fst => connUpdateRto (now - fst) s
          | none => s
        removeAcked now ackNum rest s

/-- The send-buffer drain loop ending `handle_ack`.  The fuel argument is the
current send-buffer length: each successful iteration shortens the buffer by
one, and a buffered (not sent) packet breaks the loop. -/
def drainLoop {σ : Type} (A : CongAlg σ) (now : ℚ) :
    Nat → Option TCPPacket → ConnState σ →
      Option TCPPacket × ConnState σ × List ConnEvent
  | 0, resp, s => (resp, s, [])
  | fuel + 1, resp, s =>
      match s.send_buffer with
      | [] => (resp, s, [])
      | d :: rest =>
          if (s.unacked_packets.length : ℤ) < pyInt s.congestion_window then
            let s := { s with send_buffer := rest }
            let sd := sendData A now d s
            match sd.1 with
            | some p =>
                let dl := drainLoop A now fuel (some p) sd.2.1
                (dl.1, dl.2.1, sd.2.2 ++ dl.2.2)
            | none => (resp, sd.2.1, sd.2.2)
          else (resp, s, [])

/-- First index of the entry with minimal `packet.seq_num`
(`min(..., key=lambda x: x['packet'].seq_num)` keeps the first minimum). -/
def minSeqIdxAux : List UnackedEntry → Nat → Nat → Nat → Nat
  | [], _, best, _ => best
  | e :: rest, i, best, bseq =>
      if e.packet.seq_num < bseq then minSeqIdxAux rest (i + 1) i e.packet.seq_num
      else minSeqIdxAux rest (i + 1) best bseq

def minSeqIdx : List UnackedEntry → Nat
  | [] => 0
  | e :: rest => minSeqIdxAux rest 1 0 e.packet.seq_num

/-- `handle_ack` from the cumulative-removal phase (source line 477) onwards:
removal with RTT sampling, congestion-window growth when entries were removed,
metric recording, and the send-buffer drain. -/
def handleAckCumulative {σ : Type} (A : CongAlg σ) (now : ℚ) (ackNum : Nat)
    (s : ConnState σ) : Option TCPPacket × ConnState σ × List ConnEvent :=
  let oldCount := s.unacked_packets.length
  let ra := removeAcked now ackNum s.unacked_packets s
  let remained := ra.1
  let s := { ra.2 with unacked_packets := remained }
  let s :=
    if remained.length < oldCount then
      let alg :=
        if s.congestion_state = CPhase.fast_recovery then A.onExit s.alg
        else A.onAck s.alg
      { s with alg := alg, congestion_window := A.cwnd alg,
               ssthresh := A.ssthresh alg, congestion_state := A.phase alg }
    else s
  let evs := if s.cb_metric_change then
      [ConnEvent.metric .cwnd s.congestion_window now,
       ConnEvent.metric .ssthresh s.ssthresh now] else []
  let dl := drainLoop A now s.send_buffer.length none s
  (dl.1, dl.2.1, evs ++ dl.2.2)

/-- `TCPConnection.handle_ack`. -/
def handleAck {σ : Type} (A : CongAlg σ) (now : ℚ) (ackNum : Nat)
    (s : ConnState σ) : Option TCPPacket × ConnState σ × List ConnEvent :=
  if ackNum = s.last_ack_num ∧ 0 < s.last_ack_num then
    let cnt := s.duplicate_ack_count ackNum + 1
    let s := { s with
      duplicate_ack_count := Function.update s.duplicate_ack_count ackNum cnt,
      stats_duplicate_acks := s.stats_duplicate_acks + 1 }
    if cnt = 3 then
      match s.unacked_packets with
      | [] => handleAckCumulative A now ackNum s
      | e0 :: rest =>
          let l := e0 :: rest
          let i := minSeqIdx l
          let chosen := l.getD i e0
          let bumped := { chosen with
            retransmit_count := chosen.retransmit_count + 1, send_time := now }
          let evs1 := if s.cb_metric_change then
              [ConnEvent.metric .fast_retx_event (chosen.packet.seq_num : ℚ) now] else []
          let s := { s with
            unacked_packets := l.set i bumped,
            duplicate_ack_count := Function.update s.duplicate_ack_count ackNum 0 }
          let alg := A.onLoss LossType.fast_retransmit s.alg
          let s := { s with
            alg := alg, congestion_window := A.cwnd alg,
            ssthresh := A.ssthresh alg, congestion_state := A.phase alg }
          let evs2 := if s.cb_metric_change then
              [ConnEvent.metric .cwnd s.congestion_window now,
               ConnEvent.metric .ssthresh s.ssthresh now] else []
          let evs3 := if s.cb_retransmit_needed then
              [ConnEvent.retransmitNeeded chosen.packet] else []
          (none, s, evs1 ++ evs2 ++ evs3)
    else handleAckCumulative A now ackNum s
  else
    let s :=
      if s.last_ack_num < ackNum then
        { s with duplicate_ack_count := fun _ => 0, last_ack_num := ackNum }
      else if s.last_ack_num = 0 then
        { s with last_ack_num := ackNum }
      else s
    handleAckCumulative A now ackNum s

/-- `TCPConnection._process_packet`. -/
def processPacket {σ : Type} (H : HashFn) (A : CongAlg σ) (now : ℚ)
    (p : TCPPacket) (s : ConnState σ) :
    Option TCPPacket × ConnState σ × List ConnEvent :=
  let s := if p.hasFlag FLAG_SYN ∨ 0 < p.data.length then
      { s with remote_seq_num := p.seq_num } else s
  let s := if p.hasFlag FLAG_ACK then { s with remote_ack_num := p.ack_num } else s
  match s.state with
  | TCPState.LISTEN =>
      if p.hasFlag FLAG_SYN then
        let clientIsn := p.seq_num
        let cookie := generateSynCookie H s clientIsn p.source_port p.dest_port
          (cookieTimeSlot s now)
        let s := { s with seq_num := cookie, ack_num := clientIsn + 1,
                          remote_seq_num := clientIsn }
        let cp := createPacket now (FLAG_SYN ||| FLAG_ACK) [] s
        let resp := cp.1
        let st := setState A now TCPState.SYN_RECEIVED cp.2
        let s := st.1
        let e : HandshakeEntry := {
            packet := resp, send_time := now,
            retransmit_count := 0, hs_type := .syn_ack, cookie := some cookie,
            base_rto := s.handshake_rto }
        let s := { s with handshake_unacked := [e] }
        (some resp, s, st.2)
      else (none, s, [])
  | TCPState.SYN_SENT =>
      if p.hasFlag FLAG_SYN && p.hasFlag FLAG_ACK then
        let s := { s with ack_num := p.seq_num + 1, remote_seq_num := p.seq_num }
        let cp := createPacket now FLAG_ACK [] s
        let s := { cp.2 with handshake_unacked := [] }
        let st := setState A now TCPState.ESTABLISHED s
        (some cp.1, st.1, st.2)
      else if p.hasFlag FLAG_SYN then
        let cp := createPacket now (FLAG_SYN ||| FLAG_ACK) [] s
        let st := setState A now TCPState.SYN_RECEIVED cp.2
        (some cp.1, st.1, st.2)
      else (none, s, [])
  | TCPState.SYN_RECEIVED =>
      if p.hasFlag FLAG_ACK then
        let ackCookie : ℤ := (p.ack_num : ℤ) - 1
        let clientIsn := s.remote_seq_num
        if validateSynCookie H now s ackCookie clientIsn p.source_port p.dest_port then
          let s := { s with handshake_unacked := [] }
          let st := setState A now TCPState.ESTABLISHED s
          (none, st.1, st.2)
        else (none, s, [])
      else if p.hasFlag FLAG_SYN then
        let clientIsn := p.seq_num
        let cookie := generateSynCookie H s clientIsn p.source_port p.dest_port
          (cookieTimeSlot s now)
        let s := { s with seq_num := cookie, ack_num := clientIsn + 1,
                          remote_seq_num := clientIsn }
        let cp := createPacket now (FLAG_SYN ||| FLAG_ACK) [] s
        let resp := cp.1
        let s := cp.2
        let s :=
          match s.handshake_unacked with
          | old :: rest =>
              let e := { old with
                packet := resp, send_time := now,
                retransmit_count := old.retransmit_count + 1, cookie := some cookie }
              { s with handshake_unacked := e :: rest }
          | [] =>
              let e : HandshakeEntry := {
                packet := resp, send_time := now,
                retransmit_count := 0, hs_type := .syn_ack, cookie := some cookie,
                base_rto := s.handshake_rto }
              { s with handshake_unacked := [e] }
        let out := sendPacket now resp true s
        (some out.1, out.2.1, out.2.2)
      else (none, s, [])
  | TCPState.ESTABLISHED =>
      let step0 :=
        if p.hasFlag FLAG_SYN && p.hasFlag FLAG_ACK then
          let s := { s with ack_num := p.seq_num + 1, remote_seq_num := p.seq_num }
          let cp := createPacket now FLAG_ACK [] s
          ((some cp.1 : Option TCPPacket), cp.2, ([] : List ConnEvent))
        else (none, s, [])
      let resp0 := step0.1
      let step1 :=
        if p.hasFlag FLAG_ACK then
          let ha := handleAck A now p.ack_num step0.2.1
          ((match ha.1 with | some r => some r | none => resp0), ha.2.1,
            step0.2.2 ++ ha.2.2)
        else step0
      let resp1 := step1.1
      let s := step1.2.1
      let evs1 := step1.2.2
      if p.hasFlag FLAG_FIN then
        let s := { s with ack_num := p.seq_num + 1 }
        let cp := createPacket now FLAG_ACK [] s
        let st := setState A now TCPState.CLOSE_WAIT cp.2
        (some cp.1, st.1, evs1 ++ st.2)
      else if 0 < p.data.length then
        let s := { s with receive_buffer := s.receive_buffer ++ [p.data],
                          ack_num := p.seq_num + p.data.length }
        match resp1 with
        | some r => (some r, s, evs1)
        | none =>
            let cp := createPacket now FLAG_ACK [] s
            (some cp.1, cp.2, evs1)
      else (resp1, s, evs1)
  | TCPState.FIN_WAIT_1 =>
      if p.hasFlag FLAG_ACK then
        let st := setState A now TCPState.FIN_WAIT_2 s
        (none, st.1, st.2)
      else if p.hasFlag FLAG_FIN then
        let s := { s with ack_num := p.seq_num + 1 }
        let cp := createPacket now FLAG_ACK [] s
        let st := setState A now TCPState.CLOSING cp.2
        (some cp.1, st.1, st.2)
      else (none, s, [])
  | TCPState.FIN_WAIT_2 =>
      if p.hasFlag FLAG_FIN then
        let s := { s with ack_num := p.seq_num + 1 }
        let cp := createPacket now FLAG_ACK [] s
        let st := setState A now TCPState.TIME_WAIT cp.2
        (some cp.1, st.1, st.2)
      else (none, s, [])
  | TCPState.CLOSE_WAIT => (none, s, [])
  | TCPState.CLOSING =>
      if p.hasFlag FLAG_ACK then
        let st := setState A now TCPState.TIME_WAIT s
        (none, st.1, st.2)
      else (none, s, [])
  | TCPState.LAST_ACK =>
      if p.hasFlag FLAG_ACK then
        let st := setState A now TCPState.CLOSED s
        (none, st.1, st.2)
      else (none, s, [])
  | TCPState.CLOSED => (none, s, [])
  | TCPState.TIME_WAIT => (none, s, [])

/-- `TCPConnection.receive_packet`. -/
def receivePacket {σ : Type} (H : HashFn) (A : CongAlg σ) (now : ℚ)
    (p : TCPPacket) (s : ConnState σ) :
    Option TCPPacket × ConnState σ × List ConnEvent :=
  if p.dest_port ≠ s.local_port then (none, s, [])
  else
    let s := { s with stats_packets_received := s.stats_packets_received + 1,
                      stats_bytes_received := s.stats_bytes_received + p.getSize }
    let evs := if s.cb_packet_received then [ConnEvent.packetReceived p] else []
    let out := processPacket H A now p s
    (out.1, out.2.1, evs ++ out.2.2)

/-! ## tcp_simulator.py (`NetworkSimulator`) -/

/-- One entry of `packet_queue`; `δ` is the type of destination connections
(held by reference in the source). -/
structure LinkEntry (δ : Type) where
  packet : TCPPacket
  arrival_time : ℚ
  dest : δ
deriving DecidableEq, Repr

/-- `NetworkSimulator` state. -/
structure LinkState (δ : Type) where
  delay : ℚ
  loss_rate : ℚ
  bandwidth : ℚ
  packet_queue : List (LinkEntry δ)
deriving DecidableEq, Repr

/-- `on_packet_transmitted` observations. -/
inductive LinkEv (δ : Type)
  | transmitting (p : TCPPacket) (dest : δ)
  | arrived (p : TCPPacket) (dest : δ)
  | lost (p : TCPPacket)
deriving DecidableEq, Repr

/-- `NetworkSimulator.transmit_packet`.  `u` is the `random.random()` draw and
`now` the `time.time()` value. -/
def transmitPacket {δ : Type} (u : ℚ) (now : ℚ) (p : TCPPacket) (dest : δ)
    (L : LinkState δ) : LinkState δ × List (LinkEv δ) :=
  if u < L.loss_rate then (L, [LinkEv.lost p])
  else
    let transmission_time := ((p.getSize : ℚ) / 1024) / L.bandwidth
    let arrival := now + L.delay + transmission_time
    let e : LinkEntry δ := { packet := p, arrival_time := arrival, dest := dest }
    ({ L with packet_queue := L.packet_queue ++ [e] }, [LinkEv.transmitting p dest])

/-- `NetworkSimulator.process_queue`.  `w` is the joint state of the
connections, `recv` the effect of `dest.receive_packet`, `lookup` the
`connections.get((dest.remote_port, dest.local_port))` sender lookup, and
`us` the stream of `random.random()` draws consumed by response transmission.
Due entries (`arrival_time ≤ now`) are removed and then delivered in queue
order; a delivered response is transmitted back to the sender at once. -/
def processQueueStep {w δ : Type} (recv : w → δ → TCPPacket → w × Option TCPPacket)
    (lookup : δ → Option δ) (us : Nat → ℚ) (now : ℚ)
    (acc : w × LinkState δ × List (LinkEv δ) × Nat) (e : LinkEntry δ) :
    w × LinkState δ × List (LinkEv δ) × Nat :=
  let evs := acc.2.2.1 ++ [LinkEv.arrived e.packet e.dest]
  let wr := recv acc.1 e.dest e.packet
  match wr.2, lookup e.dest with
  | some r, some sender =>
      let t := transmitPacket (us acc.2.2.2) now r sender acc.2.1
      (wr.1, t.1, evs ++ t.2, acc.2.2.2 + 1)
  | _, _ => (wr.1, acc.2.1, evs, acc.2.2.2)

def processQueue {w δ : Type} (recv : w → δ → TCPPacket → w × Option TCPPacket)
    (lookup : δ → Option δ) (us : Nat → ℚ) (now : ℚ) (world : w) (L : LinkState δ) :
    w × LinkState δ × List (LinkEv δ) :=
  let ready := L.packet_queue.filter (fun e => decide (e.arrival_time ≤ now))
  let remaining := L.packet_queue.filter (fun e => decide (¬ e.arrival_time ≤ now))
  let L := { L with packet_queue := remaining }
  let out := ready.foldl (processQueueStep recv lookup us now) (world, L, [], 0)
  (out.1, out.2.1, out.2.2.1)

/-- Recognises `ARRIVED` observations among `on_packet_transmitted` events. -/
def isArrivedEv {δ : Type} : LinkEv δ → Bool
  | LinkEv.arrived _ _ => true
  | _ => false

/-! ## Support lemmas about the connection operations -/

lemma createPacket_snd {σ : Type} (now : ℚ) (flags : Nat) (d : List Nat)
    (s : ConnState σ) : ∃ n, (createPacket now flags d s).2 = { s with seq_num := n } := by
  unfold createPacket
  dsimp only
  split_ifs
  · exact ⟨s.seq_num + 1, rfl⟩
  · exact ⟨s.seq_num + d.length, rfl⟩
  · exact ⟨s.seq_num, rfl⟩

/-- Fields of a connection untouched by `send_data`. -/
lemma sendData_frame {σ : Type} (A : CongAlg σ) (now : ℚ) (d : List Nat)
    (s : ConnState σ) :
    (sendData A now d s).2.1.stats_duplicate_acks = s.stats_duplicate_acks ∧
    (sendData A now d s).2.1.duplicate_ack_count = s.duplicate_ack_count ∧
    (sendData A now d s).2.1.last_ack_num = s.last_ack_num ∧
    (sendData A now d s).2.1.congestion_window = s.congestion_window ∧
    (sendData A now d s).2.1.ssthresh = s.ssthresh ∧
    (sendData A now d s).2.1.congestion_state = s.congestion_state ∧
    (sendData A now d s).2.1.alg = s.alg ∧
    (sendData A now d s).2.1.srtt_rttvar = s.srtt_rttvar ∧
    (sendData A now d s).2.1.rto = s.rto ∧
    (sendData A now d s).2.1.send_buffer.length ≤ s.send_buffer.length + 1 := by
  unfold sendData
  split_ifs with h1 h2
  · simp
  · simp
  · obtain ⟨n, hn⟩ := createPacket_snd now (FLAG_PSH ||| FLAG_ACK) d s
    rcases hcp : createPacket now (FLAG_PSH ||| FLAG_ACK) d s with ⟨p2, s2⟩
    have hs2 : s2 = { s with seq_num := n } := by rw [hcp] at hn; exact hn
    simp only [hcp, hs2, sendPacket]
    simp

/-- `send_data` appends to `unacked_packets` (or leaves it unchanged). -/
lemma sendData_unacked {σ : Type} (A : CongAlg σ) (now : ℚ) (d : List Nat)
    (s : ConnState σ) :
    ∃ tail, (sendData A now d s).2.1.unacked_packets = s.unacked_packets ++ tail := by
  unfold sendData
  split_ifs with h1 h2
  · exact ⟨[], by simp⟩
  · exact ⟨[], by simp⟩
  · obtain ⟨n, hn⟩ := createPacket_snd now (FLAG_PSH ||| FLAG_ACK) d s
    rcases hcp : createPacket now (FLAG_PSH ||| FLAG_ACK) d s with ⟨p2, s2⟩
    have hs2 : s2 = { s with seq_num := n } := by rw [hcp] at hn; exact hn
    simp only [hcp, hs2, sendPacket]
    refine ⟨[{ packet := p2, send_time := now, retransmit_count := 0,
               base_rto := s.rto, first_send_time := some now }], ?_⟩
    simp

/-- `send_data` emits no `retransmitNeeded` event. -/
lemma sendData_no_retx {σ : Type} (A : CongAlg σ) (now : ℚ) (d : List Nat)
    (s : ConnState σ) (q : TCPPacket) :
    ConnEvent.retransmitNeeded q ∉ (sendData A now d s).2.2 := by
  unfold sendData
  split_ifs with h1 h2
  · simp
  · simp
  · rcases hcp : createPacket now (FLAG_PSH ||| FLAG_ACK) d s with ⟨p2, s2⟩
    simp only [hcp, sendPacket]
    split_ifs <;> simp

/-- Fields of a connection untouched by the drain loop. -/
lemma drainLoop_frame {σ : Type} (A : CongAlg σ) (now : ℚ) :
    ∀ (fuel : Nat) (resp : Option TCPPacket) (s : ConnState σ),
    (drainLoop A now fuel resp s).2.1.stats_duplicate_acks = s.stats_duplicate_acks ∧
    (drainLoop A now fuel resp s).2.1.duplicate_ack_count = s.duplicate_ack_count ∧
    (drainLoop A now fuel resp s).2.1.last_ack_num = s.last_ack_num ∧
    (drainLoop A now fuel resp s).2.1.congestion_window = s.congestion_window ∧
    (drainLoop A now fuel resp s).2.1.ssthresh = s.ssthresh ∧
    (drainLoop A now fuel resp s).2.1.congestion_state = s.congestion_state ∧
    (drainLoop A now fuel resp s).2.1.alg = s.alg ∧
    (drainLoop A now fuel resp s).2.1.srtt_rttvar = s.srtt_rttvar ∧
    (drainLoop A now fuel resp s).2.1.rto = s.rto := by
  intro fuel
  induction fuel with
  | zero => intro resp s; simp [drainLoop]
  | succ fuel ih =>
      intro resp s
      unfold drainLoop
      rcases hb : s.send_buffer with _ | ⟨d, rest⟩
      · simp
      · simp only
        split_ifs with hw
        · rcases hsd : sendData A now d { s with send_buffer := rest } with ⟨sent, s2, evs⟩
          have hframe := sendData_frame A now d { s with send_buffer := rest }
          rw [hsd] at hframe
          simp only at hframe
          rcases sent with _ | p
          · simp only [hsd]
            exact ⟨hframe.1, hframe.2.1, hframe.2.2.1, hframe.2.2.2.1,
              hframe.2.2.2.2.1, hframe.2.2.2.2.2.1, hframe.2.2.2.2.2.2.1,
              hframe.2.2.2.2.2.2.2.1, hframe.2.2.2.2.2.2.2.2.1⟩
          · rcases hdl : drainLoop A now fuel (some p) s2 with ⟨r, s3, evs2⟩
            have hih := ih (some p) s2
            rw [hdl] at hih
            simp only at hih
            simp only [hsd, hdl]
            refine ⟨?_, ?_, ?_, ?_, ?_, ?_, ?_, ?_, ?_⟩ <;>
              simp only [hih.1, hih.2.1, hih.2.2.1, hih.2.2.2.1, hih.2.2.2.2.1,
                hih.2.2.2.2.2.1, hih.2.2.2.2.2.2.1, hih.2.2.2.2.2.2.2.1,
                hih.2.2.2.2.2.2.2.2, hframe.1, hframe.2.1, hframe.2.2.1,
                hframe.2.2.2.1, hframe.2.2.2.2.1, hframe.2.2.2.2.2.1,
                hframe.2.2.2.2.2.2.1, hframe.2.2.2.2.2.2.2.1,
                hframe.2.2.2.2.2.2.2.2.1]
        · simp

/-- The drain loop only appends fresh entries to `unacked_packets`. -/
lemma drainLoop_unacked {σ : Type} (A : CongAlg σ) (now : ℚ) :
    ∀ (fuel : Nat) (resp : Option TCPPacket) (s : ConnState σ),
    ∃ tail, (drainLoop A now fuel resp s).2.1.unacked_packets = s.unacked_packets ++ tail := by
  intro fuel
  induction fuel with
  | zero => intro resp s; exact ⟨[], by simp [drainLoop]⟩
  | succ fuel ih =>
      intro resp s
      unfold drainLoop
      rcases hb : s.send_buffer with _ | ⟨d, rest⟩
      · exact ⟨[], by simp⟩
      · simp only
        split_ifs with hw
        · rcases hsd : sendData A now d { s with send_buffer := rest } with ⟨sent, s2, evs⟩
          have hun := sendData_unacked A now d { s with send_buffer := rest }
          rw [hsd] at hun
          simp only at hun
          obtain ⟨t1, ht1⟩ := hun
          rcases sent with _ | p
          · exact ⟨t1, by simp only [hsd]; simpa using ht1⟩
          · rcases hdl : drainLoop A now fuel (some p) s2 with ⟨r, s3, evs2⟩
            obtain ⟨t2, ht2⟩ := ih (some p) s2
            rw [hdl] at ht2
            simp only at ht2
            refine ⟨t1 ++ t2, ?_⟩
            simp only [hsd, hdl]
            simp only [ht2, ht1]
            simp
        · exact ⟨[], by simp⟩

/-- The drain loop emits no `retransmitNeeded` event. -/
lemma drainLoop_no_retx {σ : Type} (A : CongAlg σ) (now : ℚ) :
    ∀ (fuel : Nat) (resp : Option TCPPacket) (s : ConnState σ) (q : TCPPacket),
    ConnEvent.retransmitNeeded q ∉ (drainLoop A now fuel resp s).2.2 := by
  intro fuel
  induction fuel with
  | zero => intro resp s q; simp [drainLoop]
  | succ fuel ih =>
      intro resp s q
      unfold drainLoop
      rcases hb : s.send_buffer with _ | ⟨d, rest⟩
      · simp
      · simp only
        split_ifs with hw
        · rcases hsd : sendData A now d { s with send_buffer := rest } with ⟨sent, s2, evs⟩
          have hno := sendData_no_retx A now d { s with send_buffer := rest } q
          rw [hsd] at hno
          simp only at hno
          rcases sent with _ | p
          · simpa [hsd] using hno
          · rcases hdl : drainLoop A now fuel (some p) s2 with ⟨r, s3, evs2⟩
            have hno2 := ih (some p) s2 q
            rw [hdl] at hno2
            simp only at hno2
            simp only [hsd, hdl]
            simp only [List.mem_append]
            rintro (h | h)
            · exact hno h
            · exact hno2 h
        · simp

/-- `connUpdateRto` only rewrites the estimator fields. -/
lemma connUpdateRto_eq {σ : Type} (sample : ℚ) (s : ConnState σ) :
    ∃ v w, connUpdateRto sample s = { s with srtt_rttvar := v, rto := w } :=
  ⟨_, _, rfl⟩

/-- The removal loop computes the filter of the unacked list and only rewrites
the estimator fields of the state. -/
lemma removeAcked_spec {σ : Type} (now : ℚ) (ackNum : Nat) :
    ∀ (l : List UnackedEntry) (s : ConnState σ),
    (removeAcked now ackNum l s).1 =
      l.filter (fun e => decide (ackNum < packetEndSeq e.packet)) ∧
    ∃ v w, (removeAcked now ackNum l s).2 = { s with srtt_rttvar := v, rto := w } := by
  intro l
  induction l with
  | nil =>
      intro s
      exact ⟨by simp [removeAcked], s.srtt_rttvar, s.rto, by simp [removeAcked]⟩
  | cons e rest ih =>
      intro s
      unfold removeAcked
      split_ifs with h
      · rcases hr : removeAcked now ackNum rest s with ⟨r, s2⟩
        have := ih s
        rw [hr] at this
        simp only at this
        obtain ⟨h1, v, w, h2⟩ := this
        exact ⟨by simp [List.filter, h, h1], v, w, h2⟩
      · rcases hfst : e.first_send_time with _ | fst
        · have := ih s
          obtain ⟨h1, v, w, h2⟩ := this
          refine ⟨by simp [List.filter, h, h1], v, w, h2⟩
        · have := ih (connUpdateRto (now - fst) s)
          obtain ⟨h1, v, w, h2⟩ := this
          refine ⟨by simp [List.filter, h, h1], v, w, ?_⟩
          rw [h2, connUpdateRto]

lemma drainLoop_stats_dup {σ : Type} (A : CongAlg σ) (now : ℚ) (fuel : Nat)
    (resp : Option TCPPacket) (s : ConnState σ) :
    (drainLoop A now fuel resp s).2.1.stats_duplicate_acks = s.stats_duplicate_acks :=
  (drainLoop_frame A now fuel resp s).1

lemma drainLoop_dup_map {σ : Type} (A : CongAlg σ) (now : ℚ) (fuel : Nat)
    (resp : Option TCPPacket) (s : ConnState σ) :
    (drainLoop A now fuel resp s).2.1.duplicate_ack_count = s.duplicate_ack_count :=
  (drainLoop_frame A now fuel resp s).2.1

lemma drainLoop_last_ack {σ : Type} (A : CongAlg σ) (now : ℚ) (fuel : Nat)
    (resp : Option TCPPacket) (s : ConnState σ) :
    (drainLoop A now fuel resp s).2.1.last_ack_num = s.last_ack_num :=
  (drainLoop_frame A now fuel resp s).2.2.1

lemma drainLoop_cwnd {σ : Type} (A : CongAlg σ) (now : ℚ) (fuel : Nat)
    (resp : Option TCPPacket) (s : ConnState σ) :
    (drainLoop A now fuel resp s).2.1.congestion_window = s.congestion_window :=
  (drainLoop_frame A now fuel resp s).2.2.2.1

lemma drainLoop_ssthresh {σ : Type} (A : CongAlg σ) (now : ℚ) (fuel : Nat)
    (resp : Option TCPPacket) (s : ConnState σ) :
    (drainLoop A now fuel resp s).2.1.ssthresh = s.ssthresh :=
  (drainLoop_frame A now fuel resp s).2.2.2.2.1

lemma drainLoop_cstate {σ : Type} (A : CongAlg σ) (now : ℚ) (fuel : Nat)
    (resp : Option TCPPacket) (s : ConnState σ) :
    (drainLoop A now fuel resp s).2.1.congestion_state = s.congestion_state :=
  (drainLoop_frame A now fuel resp s).2.2.2.2.2.1

lemma drainLoop_alg {σ : Type} (A : CongAlg σ) (now : ℚ) (fuel : Nat)
    (resp : Option TCPPacket) (s : ConnState σ) :
    (drainLoop A now fuel resp s).2.1.alg = s.alg :=
  (drainLoop_frame A now fuel resp s).2.2.2.2.2.2.1

lemma drainLoop_srtt {σ : Type} (A : CongAlg σ) (now : ℚ) (fuel : Nat)
    (resp : Option TCPPacket) (s : ConnState σ) :
    (drainLoop A now fuel resp s).2.1.srtt_rttvar = s.srtt_rttvar :=
  (drainLoop_frame A now fuel resp s).2.2.2.2.2.2.2.1

lemma drainLoop_rto {σ : Type} (A : CongAlg σ) (now : ℚ) (fuel : Nat)
    (resp : Option TCPPacket) (s : ConnState σ) :
    (drainLoop A now fuel resp s).2.1.rto = s.rto :=
  (drainLoop_frame A now fuel resp s).2.2.2.2.2.2.2.2

/-- `handleAckCumulative` never touches the duplicate-ACK bookkeeping. -/
lemma handleAckCumulative_dup {σ : Type} (A : CongAlg σ) (now : ℚ) (ackNum : Nat)
    (s : ConnState σ) :
    (handleAckCumulative A now ackNum s).2.1.stats_duplicate_acks = s.stats_duplicate_acks ∧
    (handleAckCumulative A now ackNum s).2.1.duplicate_ack_count = s.duplicate_ack_count ∧
    (handleAckCumulative A now ackNum s).2.1.last_ack_num = s.last_ack_num := by
  obtain ⟨hfil, v, w, hs1⟩ := removeAcked_spec now ackNum (σ := σ) s.unacked_packets s
  unfold handleAckCumulative
  dsimp only
  rw [hs1]
  refine ⟨?_, ?_, ?_⟩
  · rw [drainLoop_stats_dup]; split_ifs <;> simp
  · rw [drainLoop_dup_map]; split_ifs <;> simp
  · rw [drainLoop_last_ack]; split_ifs <;> simp

/-! ### Claim C10 -/

/-- Claim C10 (confirmed).  A packet whose `dest_port` differs from
`local_port` makes `receive_packet` return `None` with the connection state
untouched and no callback fired. -/
theorem c10_wrong_port_noop {σ : Type} (H : HashFn) (A : CongAlg σ) (now : ℚ)
    (p : TCPPacket) (s : ConnState σ) (h : p.dest_port ≠ s.local_port) :
    receivePacket H A now p s = (none, s, []) := by
  unfold receivePacket
  rw [if_pos h]

/-- A fixed hash function for concrete witnesses. -/
def hZero : HashFn := fun _ _ _ _ _ => 0

/-- A concrete `TCPConnection` state (Reno, as `create_algorithm` defaults)
used as a base for witnesses. -/
def baseConn : ConnState RenoState :=
  { local_port := 5000, remote_port := 8000,
    seq_num := 100, ack_num := 0, remote_seq_num := 0, remote_ack_num := 0,
    state := TCPState.ESTABLISHED, send_window := 65535, receive_window := 65535,
    alg := renoInit, congestion_window := 1, ssthresh := 16,
    congestion_state := CPhase.slow_start,
    send_buffer := [], receive_buffer := [],
    min_pacing_interval := 1/20, last_paced_send_time := 0,
    unacked_packets := [], handshake_unacked := [],
    cookie_secret := 7, cookie_time_step := 64,
    rto := 3, handshake_rto := 3, srtt_rttvar := none,
    duplicate_ack_count := fun _ => 0, last_ack_num := 0,
    cb_state_change := true, cb_packet_sent := true, cb_packet_received := true,
    cb_metric_change := false, cb_retransmit_needed := true,
    stats_packets_sent := 0, stats_packets_received := 0,
    stats_bytes_sent := 0, stats_bytes_received := 0,
    stats_retransmissions := 0, stats_duplicate_acks := 0 }

/-- A concrete packet aimed at the wrong port. -/
def strayPacket : TCPPacket :=
  { source_port := 8000, dest_port := 1234, seq_num := 10, ack_num := 0,
    flags := FLAG_ACK, window_size := 65535, data := [], timestamp := 0 }

/-- Claim C10 witness at a concrete state and packet. -/
theorem c10_witness :
    receivePacket hZero renoCA 0 strayPacket baseConn = (none, baseConn, []) :=
  c10_wrong_port_noop hZero renoCA 0 strayPacket baseConn (by decide)

/-! ### Claim C3 -/

lemma rtoStep_some (st : RtoState) (r : ℚ) (hr : 0 < r)
    (h : ∃ sr rv, st.srtt_rttvar = some (sr, rv) ∧ 0 < sr ∧ 0 ≤ rv ∧
      st.rto = sr + max 1 (4 * rv)) :
    ∃ sr rv, (rtoStep st r).srtt_rttvar = some (sr, rv) ∧ 0 < sr ∧ 0 ≤ rv ∧
      (rtoStep st r).rto = sr + max 1 (4 * rv) := by
  obtain ⟨sr, rv, hsv, hsr, hrv, hrto⟩ := h
  have hnot : ¬ r ≤ 0 := not_le.mpr hr
  refine ⟨(1 - 1/8) * sr + (1/8) * r, (1 - 1/4) * rv + (1/4) * |sr - r|, ?_, ?_, ?_, ?_⟩
  · simp [rtoStep, hnot, hsv]
  · nlinarith [hsr, hr]
  · have := abs_nonneg (sr - r)
    nlinarith [hrv]
  · simp [rtoStep, hnot, hsv]

lemma rtoFold_some (samples : List ℚ) :
    ∀ st : RtoState, (∀ r ∈ samples, 0 < r) →
    (∃ sr rv, st.srtt_rttvar = some (sr, rv) ∧ 0 < sr ∧ 0 ≤ rv ∧
      st.rto = sr + max 1 (4 * rv)) →
    ∃ sr rv, (samples.foldl rtoStep st).srtt_rttvar = some (sr, rv) ∧ 0 < sr ∧
      0 ≤ rv ∧ (samples.foldl rtoStep st).rto = sr + max 1 (4 * rv) := by
  induction samples with
  | nil => intro st h hp; simpa using hp
  | cons r rest ih =>
      intro st h hp
      simp only [List.foldl_cons]
      exact ih _ (fun x hx => h x (List.mem_cons_of_mem _ hx))
        (rtoStep_some st r (h r (List.mem_cons_self _ _)) hp)

/-- Claim C3 (corrected).  After each incorporated positive RTT sample the
estimator holds `srtt` and `rttvar` and sets
`rto = srtt + max 1 (4 * rttvar)` with no upper clamp; `rto ≥ 1` always holds,
but nothing caps it at 60 (the 60-second cap lives only in the per-entry
timeout `min(60, base_rto * 2^retransmit_count)` of `check_timeouts`). -/
theorem c3_rto_estimator (samples : List ℚ) (hpos : ∀ r ∈ samples, 0 < r)
    (hne : samples ≠ []) :
    ∃ sr rv, (rtoRun samples).srtt_rttvar = some (sr, rv) ∧
      (rtoRun samples).rto = sr + max 1 (4 * rv) ∧ 1 ≤ (rtoRun samples).rto := by
  rcases samples with _ | ⟨r, rest⟩
  · exact absurd rfl hne
  · have hr : 0 < r := hpos r (List.mem_cons_self _ _)
    have hbase : ∃ sr rv, (rtoStep rtoInit r).srtt_rttvar = some (sr, rv) ∧ 0 < sr ∧
        0 ≤ rv ∧ (rtoStep rtoInit r).rto = sr + max 1 (4 * rv) := by
      have hnot : ¬ r ≤ 0 := not_le.mpr hr
      exact ⟨r, r / 2, by simp [rtoStep, hnot, rtoInit], hr, by positivity,
        by simp [rtoStep, hnot, rtoInit]⟩
    have := rtoFold_some rest (rtoStep rtoInit r)
      (fun x hx => hpos x (List.mem_cons_of_mem _ hx)) hbase
    obtain ⟨sr, rv, h1, h2, h3, h4⟩ := this
    have hmax : (1 : ℚ) ≤ max 1 (4 * rv) := le_max_left _ _
    exact ⟨sr, rv, by simpa [rtoRun] using h1, by simpa [rtoRun] using h4,
      by rw [rtoRun]; simp only [List.foldl_cons] at *; rw [h4]; linarith⟩

/-- Claim C3 counterexample: a single sample of 100 s yields
`rto = 100 + max 1 (4 * 50) = 300`, which is not `clamp(..., 1, 60) = 60` and
exceeds 60 — the estimator never applies the upper clamp. -/
theorem c3_counterexample :
    (rtoRun [100]).rto = 300 ∧ ¬ (rtoRun [100]).rto ≤ 60 := by
  have h : (rtoRun [100]).rto = 300 := by
    show (rtoStep rtoInit 100).rto = 300
    rw [rtoStep, if_neg (by norm_num : ¬ (100 : ℚ) ≤ 0)]
    show (100 : ℚ) + max 1 (4 * (100 / 2)) = 300
    rw [max_eq_right (by norm_num : (1 : ℚ) ≤ 4 * (100 / 2))]
    norm_num
  exact ⟨h, by rw [h]; norm_num⟩

/-- Claim C3 witness: the corrected statement applied to the samples `[2, 3]`. -/
theorem c3_witness :
    ∃ sr rv, (rtoRun [2, 3]).srtt_rttvar = some (sr, rv) ∧
      (rtoRun [2, 3]).rto = sr + max 1 (4 * rv) ∧ 1 ≤ (rtoRun [2, 3]).rto :=
  c3_rto_estimator [2, 3] (by intro r hr; fin_cases hr <;> norm_num) (by simp)

lemma handleAckCumulative_stats {σ : Type} (A : CongAlg σ) (now : ℚ) (ackNum : Nat)
    (s : ConnState σ) :
    (handleAckCumulative A now ackNum s).2.1.stats_duplicate_acks = s.stats_duplicate_acks :=
  (handleAckCumulative_dup A now ackNum s).1

lemma handleAckCumulative_dupmap {σ : Type} (A : CongAlg σ) (now : ℚ) (ackNum : Nat)
    (s : ConnState σ) :
    (handleAckCumulative A now ackNum s).2.1.duplicate_ack_count = s.duplicate_ack_count :=
  (handleAckCumulative_dup A now ackNum s).2.1

lemma handleAckCumulative_lastack {σ : Type} (A : CongAlg σ) (now : ℚ) (ackNum : Nat)
    (s : ConnState σ) :
    (handleAckCumulative A now ackNum s).2.1.last_ack_num = s.last_ack_num :=
  (handleAckCumulative_dup A now ackNum s).2.2

/-- How `handle_ack` updates the `duplicate_acks` statistic: it increments
exactly when `ack_num == last_ack_num > 0`, regardless of the unacked table. -/
lemma handleAck_stats_dup {σ : Type} (A : CongAlg σ) (now : ℚ) (ackNum : Nat)
    (s : ConnState σ) :
    (handleAck A now ackNum s).2.1.stats_duplicate_acks =
      s.stats_duplicate_acks +
        (if ackNum = s.last_ack_num ∧ 0 < s.last_ack_num then 1 else 0) := by
  unfold handleAck
  dsimp only
  by_cases hdup : ackNum = s.last_ack_num ∧ 0 < s.last_ack_num
  · rw [if_pos hdup, if_pos hdup]
    by_cases hcnt : s.duplicate_ack_count ackNum + 1 = 3
    · rw [if_pos hcnt]
      rcases hu : s.unacked_packets with _ | ⟨e0, rest⟩
      · rw [handleAckCumulative_stats]
      · simp
    · rw [if_neg hcnt, handleAckCumulative_stats]
  · rw [if_neg hdup, if_neg hdup]
    split_ifs <;> rw [handleAckCumulative_stats] <;> rfl

/-- How `handle_ack` updates the duplicate-ACK dict. -/
lemma handleAck_dup_map {σ : Type} (A : CongAlg σ) (now : ℚ) (ackNum : Nat)
    (s : ConnState σ) :
    (handleAck A now ackNum s).2.1.duplicate_ack_count =
      (if ackNum = s.last_ack_num ∧ 0 < s.last_ack_num then
        (if s.duplicate_ack_count ackNum + 1 = 3 ∧ s.unacked_packets ≠ [] then
          Function.update s.duplicate_ack_count ackNum 0
        else
          Function.update s.duplicate_ack_count ackNum (s.duplicate_ack_count ackNum + 1))
      else if s.last_ack_num < ackNum then (fun _ => 0)
      else s.duplicate_ack_count) := by
  unfold handleAck
  dsimp only
  by_cases hdup : ackNum = s.last_ack_num ∧ 0 < s.last_ack_num
  · rw [if_pos hdup, if_pos hdup]
    by_cases hcnt : s.duplicate_ack_count ackNum + 1 = 3
    · rcases hu : s.unacked_packets with _ | ⟨e0, rest⟩
      · rw [if_pos hcnt, handleAckCumulative_dupmap]
        simp [hcnt]
      · rw [if_pos hcnt]
        simp [hcnt, Function.update_idem]
    · rw [if_neg hcnt, handleAckCumulative_dupmap]
      have : ¬ (s.duplicate_ack_count ackNum + 1 = 3 ∧ s.unacked_packets ≠ []) :=
        fun h => hcnt h.1
      rw [if_neg this]
  · rw [if_neg hdup, if_neg hdup]
    split_ifs with hlt hz <;> rw [handleAckCumulative_dupmap]

/-- `handle_ack` keeps `last_ack_num` when the ACK is classified duplicate. -/
lemma handleAck_lastack_dup {σ : Type} (A : CongAlg σ) (now : ℚ) (ackNum : Nat)
    (s : ConnState σ) (hdup : ackNum = s.last_ack_num ∧ 0 < s.last_ack_num) :
    (handleAck A now ackNum s).2.1.last_ack_num = s.last_ack_num := by
  unfold handleAck
  dsimp only
  rw [if_pos hdup]
  by_cases hcnt : s.duplicate_ack_count ackNum + 1 = 3
  · rw [if_pos hcnt]
    rcases hu : s.unacked_packets with _ | ⟨e0, rest⟩
    · rw [handleAckCumulative_lastack]
    · simp
  · rw [if_neg hcnt, handleAckCumulative_lastack]

/-! ### Claim C4 -/

/-- Claim C4 (corrected).  In `handle_ack` an ACK is classified duplicate
(incrementing the per-ack counter and the `duplicate_acks` statistic) iff
`ack_num == last_ack_num` and `last_ack_num > 0` — the non-emptiness of the
unacked table is not part of the classification; it only gates the
third-duplicate fast-retransmit action. -/
theorem c4_duplicate_classification {σ : Type} (A : CongAlg σ) (now : ℚ)
    (ackNum : Nat) (s : ConnState σ) :
    (handleAck A now ackNum s).2.1.stats_duplicate_acks =
      s.stats_duplicate_acks +
        (if ackNum = s.last_ack_num ∧ 0 < s.last_ack_num then 1 else 0) ∧
    (handleAck A now ackNum s).2.1.duplicate_ack_count =
      (if ackNum = s.last_ack_num ∧ 0 < s.last_ack_num then
        (if s.duplicate_ack_count ackNum + 1 = 3 ∧ s.unacked_packets ≠ [] then
          Function.update s.duplicate_ack_count ackNum 0
        else
          Function.update s.duplicate_ack_count ackNum (s.duplicate_ack_count ackNum + 1))
      else if s.last_ack_num < ackNum then (fun _ => 0)
      else s.duplicate_ack_count) :=
  ⟨handleAck_stats_dup A now ackNum s, handleAck_dup_map A now ackNum s⟩

/-- A connection that has already seen ACK number 5, with an empty unacked
table. -/
def c4state : ConnState RenoState := { baseConn with last_ack_num := 5 }

/-- Claim C4 counterexample: with `last_ack_num = 5` and an **empty** unacked
table, `handle_ack(5)` still classifies the ACK as duplicate — the
`duplicate_acks` statistic and the counter for 5 both rise to 1, though the
claim's classification (which requires a non-empty table) says they must not. -/
theorem c4_counterexample :
    c4state.unacked_packets = [] ∧
    5 = c4state.last_ack_num ∧
    (handleAck renoCA 0 5 c4state).2.1.stats_duplicate_acks = 1 ∧
    (handleAck renoCA 0 5 c4state).2.1.duplicate_ack_count 5 = 1 := by
  refine ⟨rfl, rfl, ?_, ?_⟩ <;> decide

/-- When every unacked entry ends beyond the ACK, the removal loop removes
nothing and leaves the connection untouched. -/
lemma removeAcked_all_kept {σ : Type} (now : ℚ) (ackNum : Nat) :
    ∀ (l : List UnackedEntry) (s : ConnState σ),
    (∀ e ∈ l, ackNum < packetEndSeq e.packet) →
    removeAcked now ackNum l s = (l, s) := by
  intro l
  induction l with
  | nil => intro s h; rfl
  | cons e rest ih =>
      intro s h
      unfold removeAcked
      rw [if_pos (h e (List.mem_cons_self _ _))]
      rw [ih s (fun x hx => h x (List.mem_cons_of_mem _ hx))]

/-- `handleAckCumulative` under an ACK below every outstanding entry: the
congestion and estimator fields are untouched, entries are only appended, and
with an empty send buffer the call is a no-op returning `none`. -/
lemma handleAckCumulative_kept {σ : Type} (A : CongAlg σ) (now : ℚ) (ackNum : Nat)
    (s : ConnState σ) (h4 : ∀ e ∈ s.unacked_packets, ackNum < packetEndSeq e.packet) :
    (handleAckCumulative A now ackNum s).2.1.congestion_window = s.congestion_window ∧
    (handleAckCumulative A now ackNum s).2.1.ssthresh = s.ssthresh ∧
    (handleAckCumulative A now ackNum s).2.1.congestion_state = s.congestion_state ∧
    (handleAckCumulative A now ackNum s).2.1.alg = s.alg ∧
    (handleAckCumulative A now ackNum s).2.1.srtt_rttvar = s.srtt_rttvar ∧
    (handleAckCumulative A now ackNum s).2.1.rto = s.rto ∧
    (∃ sent, (handleAckCumulative A now ackNum s).2.1.unacked_packets =
        s.unacked_packets ++ sent) ∧
    (s.send_buffer = [] →
      (handleAckCumulative A now ackNum s).1 = none ∧
      (handleAckCumulative A now ackNum s).2.1 = s) := by
  have hra := removeAcked_all_kept now ackNum (σ := σ) s.unacked_packets s h4
  unfold handleAckCumulative
  dsimp only
  rw [hra]
  dsimp only
  rw [if_neg (lt_irrefl s.unacked_packets.length)]
  refine ⟨?_, ?_, ?_, ?_, ?_, ?_, ?_, ?_⟩
  · rw [drainLoop_cwnd]
  · rw [drainLoop_ssthresh]
  · rw [drainLoop_cstate]
  · rw [drainLoop_alg]
  · rw [drainLoop_srtt]
  · rw [drainLoop_rto]
  · obtain ⟨tail, ht⟩ := drainLoop_unacked A now _ none
      { s with unacked_packets := s.unacked_packets }
    exact ⟨tail, ht⟩
  · intro hb
    have hfuel : ({ s with unacked_packets := s.unacked_packets } :
        ConnState σ).send_buffer.length = 0 := by
      simp [hb]
    rw [hfuel]
    simp [drainLoop]

/-! ### Claim C9 -/

/-- Claim C9 (confirmed).  A duplicate ACK whose counter after incrementing is
still below 3 (for an ACK below every outstanding entry, as any reachable
duplicate is) leaves cwnd, ssthresh, phase, the algorithm state, the RTT
estimator and `last_ack_num` unchanged, removes no unacked entry (entries can
only be appended by the final drain), and changes only the duplicate-ACK
counter and the `duplicate_acks` statistic; with an empty send buffer the
state changes in exactly those two fields and `None` is returned. -/
theorem c9_sub3_duplicate_frame {σ : Type} (A : CongAlg σ) (now : ℚ) (ackNum : Nat)
    (s : ConnState σ)
    (h1 : ackNum = s.last_ack_num) (h2 : 0 < s.last_ack_num)
    (h3 : s.duplicate_ack_count ackNum + 1 < 3)
    (h4 : ∀ e ∈ s.unacked_packets, ackNum < packetEndSeq e.packet) :
    (handleAck A now ackNum s).2.1.congestion_window = s.congestion_window ∧
    (handleAck A now ackNum s).2.1.ssthresh = s.ssthresh ∧
    (handleAck A now ackNum s).2.1.congestion_state = s.congestion_state ∧
    (handleAck A now ackNum s).2.1.alg = s.alg ∧
    (handleAck A now ackNum s).2.1.last_ack_num = s.last_ack_num ∧
    (handleAck A now ackNum s).2.1.srtt_rttvar = s.srtt_rttvar ∧
    (handleAck A now ackNum s).2.1.rto = s.rto ∧
    (handleAck A now ackNum s).2.1.stats_duplicate_acks = s.stats_duplicate_acks + 1 ∧
    (handleAck A now ackNum s).2.1.duplicate_ack_count =
      Function.update s.duplicate_ack_count ackNum (s.duplicate_ack_count ackNum + 1) ∧
    (∃ sent, (handleAck A now ackNum s).2.1.unacked_packets =
        s.unacked_packets ++ sent) ∧
    (s.send_buffer = [] →
      (handleAck A now ackNum s).1 = none ∧
      (handleAck A now ackNum s).2.1 =
        { s with
          duplicate_ack_count :=
            Function.update s.duplicate_ack_count ackNum
              (s.duplicate_ack_count ackNum + 1),
          stats_duplicate_acks := s.stats_duplicate_acks + 1 }) := by
  have hdup : ackNum = s.last_ack_num ∧ 0 < s.last_ack_num := ⟨h1, h2⟩
  have hcnt : ¬ s.duplicate_ack_count ackNum + 1 = 3 := by omega
  have hlast := handleAck_lastack_dup A now ackNum s hdup
  unfold handleAck at hlast ⊢
  dsimp only at hlast ⊢
  rw [if_pos hdup, if_neg hcnt] at hlast ⊢
  have hk := handleAckCumulative_kept A now ackNum
    { s with
      duplicate_ack_count :=
        Function.update s.duplicate_ack_count ackNum (s.duplicate_ack_count ackNum + 1),
      stats_duplicate_acks := s.stats_duplicate_acks + 1 } h4
  refine ⟨hk.1, hk.2.1, hk.2.2.1, hk.2.2.2.1, hlast, hk.2.2.2.2.1, hk.2.2.2.2.2.1,
    ?_, ?_, ?_, ?_⟩
  · rw [handleAckCumulative_stats]
  · rw [handleAckCumulative_dupmap]
  · exact hk.2.2.2.2.2.2.1
  · intro hb
    have hres := hk.2.2.2.2.2.2.2 hb
    exact ⟨hres.1, hres.2⟩

/-- A connection mid-transfer: one outstanding segment with end sequence 120,
`last_ack_num = 100`, one duplicate ACK already recorded. -/
def c9state : ConnState RenoState :=
  { baseConn with
    last_ack_num := 100,
    duplicate_ack_count := fun n => if n = 100 then 1 else 0,
    unacked_packets :=
      [{ packet := { source_port := 5000, dest_port := 8000, seq_num := 100,
                     ack_num := 0, flags := 0x18, window_size := 65535,
                     data := [1, 2, 3, 4, 5, 6, 7, 8, 9, 10, 11, 12, 13, 14, 15,
                              16, 17, 18, 19, 20], timestamp := 0 },
         send_time := 0, retransmit_count := 0, base_rto := 3,
         first_send_time := some 0 }] }

/-- Claim C9 witness: the frame property at a concrete second duplicate ACK. -/
theorem c9_witness :
    (handleAck renoCA 1 100 c9state).1 = none ∧
    (handleAck renoCA 1 100 c9state).2.1 =
      { c9state with
        duplicate_ack_count :=
          Function.update c9state.duplicate_ack_count 100
            (c9state.duplicate_ack_count 100 + 1),
        stats_duplicate_acks := c9state.stats_duplicate_acks + 1 } :=
  (c9_sub3_duplicate_frame renoCA 1 100 c9state rfl (by decide) (by decide)
    (by decide)).2.2.2.2.2.2.2.2.2.2 rfl

/-- The unacked table after `handleAckCumulative`: the filtered survivors
followed by whatever the drain loop freshly sent. -/
lemma handleAckCumulative_unacked {σ : Type} (A : CongAlg σ) (now : ℚ) (ackNum : Nat)
    (s : ConnState σ) :
    ∃ sent, (handleAckCumulative A now ackNum s).2.1.unacked_packets =
      s.unacked_packets.filter (fun e => decide (ackNum < packetEndSeq e.packet)) ++ sent := by
  obtain ⟨hfil, v, w, hs1⟩ := removeAcked_spec now ackNum (σ := σ) s.unacked_packets s
  have key : ∀ X : ConnState σ,
      X.unacked_packets =
        s.unacked_packets.filter (fun e => decide (ackNum < packetEndSeq e.packet)) →
      ∃ sent, (drainLoop A now X.send_buffer.length none X).2.1.unacked_packets =
        s.unacked_packets.filter (fun e => decide (ackNum < packetEndSeq e.packet)) ++ sent := by
    intro X hX
    obtain ⟨tail, ht⟩ := drainLoop_unacked A now X.send_buffer.length none X
    exact ⟨tail, by rw [ht, hX]⟩
  unfold handleAckCumulative
  dsimp only
  rw [hfil, hs1]
  split_ifs <;> (refine key _ ?_; rfl)

/-- The drain loop with an empty send buffer is the identity. -/
lemma drainLoop_zero {σ : Type} (A : CongAlg σ) (now : ℚ) (resp : Option TCPPacket)
    (s : ConnState σ) (h : s.send_buffer = []) :
    drainLoop A now s.send_buffer.length resp s = (resp, s, []) := by
  rw [h]
  rfl

/-- With an empty send buffer, `handleAckCumulative` leaves exactly the
filtered survivors. -/
lemma handleAckCumulative_unacked_empty {σ : Type} (A : CongAlg σ) (now : ℚ)
    (ackNum : Nat) (s : ConnState σ) (hb : s.send_buffer = []) :
    (handleAckCumulative A now ackNum s).2.1.unacked_packets =
      s.unacked_packets.filter (fun e => decide (ackNum < packetEndSeq e.packet)) := by
  obtain ⟨hfil, v, w, hs1⟩ := removeAcked_spec now ackNum (σ := σ) s.unacked_packets s
  unfold handleAckCumulative
  dsimp only
  rw [hfil, hs1]
  split_ifs <;> (rw [drainLoop_zero]; exact hb)

/-- Packaging of the removal shape for any state sharing `s`'s unacked table
and send buffer. -/
lemma handleAckCumulative_c6_pack {σ : Type} (A : CongAlg σ) (now : ℚ) (ackNum : Nat)
    (s s1 : ConnState σ) (hu : s1.unacked_packets = s.unacked_packets)
    (hb2 : s1.send_buffer = s.send_buffer) :
    (∃ sent, (handleAckCumulative A now ackNum s1).2.1.unacked_packets =
        s.unacked_packets.filter (fun e => decide (ackNum < packetEndSeq e.packet)) ++ sent) ∧
    (s.send_buffer = [] →
      (handleAckCumulative A now ackNum s1).2.1.unacked_packets =
        s.unacked_packets.filter (fun e => decide (ackNum < packetEndSeq e.packet)) ∧
      ∀ e ∈ (handleAckCumulative A now ackNum s1).2.1.unacked_packets,
        ackNum < packetEndSeq e.packet) := by
  constructor
  · obtain ⟨sent, hsent⟩ := handleAckCumulative_unacked A now ackNum s1
    rw [hu] at hsent
    exact ⟨sent, hsent⟩
  · intro hb
    have h1 := handleAckCumulative_unacked_empty A now ackNum s1 (by rw [hb2, hb])
    rw [hu] at h1
    refine ⟨h1, ?_⟩
    intro e he
    rw [h1] at he
    exact of_decide_eq_true (List.mem_filter.mp he).2

/-! ### Claim C6 -/

/-- Claim C6 (confirmed).  When `handle_ack` is not short-circuited by a third
duplicate, the entries of the unacked table at call time that survive are
exactly those with `end_seq > ack_num`, retained unchanged and in order (the
survivors are the `filter` of the original list); anything beyond them was
freshly appended by the final send-buffer drain, so with an empty send buffer
the table afterwards is exactly that filter and every remaining entry has
`end_seq > ack_num`. -/
theorem c6_cumulative_removal {σ : Type} (A : CongAlg σ) (now : ℚ) (ackNum : Nat)
    (s : ConnState σ)
    (hnd : ¬ (ackNum = s.last_ack_num ∧ 0 < s.last_ack_num ∧
              s.duplicate_ack_count ackNum + 1 = 3 ∧ s.unacked_packets ≠ [])) :
    (∃ sent, (handleAck A now ackNum s).2.1.unacked_packets =
        s.unacked_packets.filter (fun e => decide (ackNum < packetEndSeq e.packet)) ++ sent) ∧
    (s.send_buffer = [] →
      (handleAck A now ackNum s).2.1.unacked_packets =
        s.unacked_packets.filter (fun e => decide (ackNum < packetEndSeq e.packet)) ∧
      ∀ e ∈ (handleAck A now ackNum s).2.1.unacked_packets,
        ackNum < packetEndSeq e.packet) := by
  unfold handleAck
  dsimp only
  by_cases hdup : ackNum = s.last_ack_num ∧ 0 < s.last_ack_num
  · rw [if_pos hdup]
    by_cases hcnt : s.duplicate_ack_count ackNum + 1 = 3
    · have hu : s.unacked_packets = [] := by
        by_contra h
        exact hnd ⟨hdup.1, hdup.2, hcnt, h⟩
      rw [if_pos hcnt]
      split
      · exact handleAckCumulative_c6_pack A now ackNum s _ rfl rfl
      · rename_i e0 rest heq
        rw [hu] at heq
        cases heq
    · rw [if_neg hcnt]
      exact handleAckCumulative_c6_pack A now ackNum s _ rfl rfl
  · rw [if_neg hdup]
    split_ifs with hlt hz <;>
      exact handleAckCumulative_c6_pack A now ackNum s _ rfl rfl

/-- A connection with two outstanding segments ending at 110 and 120 and a
cumulative ACK for 110. -/
def c6state : ConnState RenoState :=
  { baseConn with
    last_ack_num := 90,
    unacked_packets :=
      [{ packet := { source_port := 5000, dest_port := 8000, seq_num := 100,
                     ack_num := 0, flags := 0x18, window_size := 65535,
                     data := [1, 2, 3, 4, 5, 6, 7, 8, 9, 10], timestamp := 0 },
         send_time := 0, retransmit_count := 0, base_rto := 3,
         first_send_time := none },
       { packet := { source_port := 5000, dest_port := 8000, seq_num := 110,
                     ack_num := 0, flags := 0x18, window_size := 65535,
                     data := [1, 2, 3, 4, 5, 6, 7, 8, 9, 10], timestamp := 0 },
         send_time := 0, retransmit_count := 0, base_rto := 3,
         first_send_time := none }] }

/-- Claim C6 witness: a concrete cumulative ACK at 110 leaves exactly the
segments ending beyond 110. -/
theorem c6_witness :
    (handleAck renoCA 1 110 c6state).2.1.unacked_packets =
      c6state.unacked_packets.filter
        (fun e => decide (110 < packetEndSeq e.packet)) ∧
    ∀ e ∈ (handleAck renoCA 1 110 c6state).2.1.unacked_packets,
      110 < packetEndSeq e.packet :=
  (c6_cumulative_removal renoCA 1 110 c6state (by decide)).2 rfl

/-- Invariant of the scan performed by `min(..., key=seq_num)`: walking `rest`
with the best index/value seen over the prefix `pre` returns an in-range index
holding a minimal sequence number. -/
lemma minSeqIdxAux_spec (d : UnackedEntry) :
    ∀ (rest pre : List UnackedEntry) (best bseq : Nat),
    best < pre.length →
    ((pre ++ rest).getD best d).packet.seq_num = bseq →
    (∀ e ∈ pre, bseq ≤ e.packet.seq_num) →
    minSeqIdxAux rest pre.length best bseq < (pre ++ rest).length ∧
    ∀ e ∈ pre ++ rest,
      ((pre ++ rest).getD (minSeqIdxAux rest pre.length best bseq) d).packet.seq_num ≤
        e.packet.seq_num := by
  intro rest
  induction rest with
  | nil =>
      intro pre best bseq hb hval hmin
      constructor
      · simpa [minSeqIdxAux] using lt_of_lt_of_le hb (by simp)
      · intro e he
        simp only [minSeqIdxAux]
        rw [hval]
        simp only [List.append_nil] at he
        exact hmin e he
  | cons a rest ih =>
      intro pre best bseq hb hval hmin
      have hassoc : pre ++ a :: rest = (pre ++ [a]) ++ rest := by simp
      have hlen1 : (pre ++ [a]).length = pre.length + 1 := by simp
      simp only [minSeqIdxAux]
      split_ifs with hlt
      · have hb' : pre.length < (pre ++ [a]).length := by simp
        have hval' : (((pre ++ [a]) ++ rest).getD pre.length d).packet.seq_num =
            a.packet.seq_num := by
          rw [List.getD_append _ _ _ _ hb',
            List.getD_append_right _ _ _ _ (le_refl pre.length)]
          simp
        have hmin' : ∀ e ∈ pre ++ [a], a.packet.seq_num ≤ e.packet.seq_num := by
          intro e he
          rcases List.mem_append.mp he with h | h
          · exact le_trans (le_of_lt hlt) (hmin e h)
          · simp only [List.mem_singleton] at h
            subst h
            exact le_refl _
        have := ih (pre ++ [a]) pre.length a.packet.seq_num hb' hval' hmin'
        rw [hlen1] at this
        rw [hassoc]
        exact this
      · have hb' : best < (pre ++ [a]).length := by
          rw [hlen1]; omega
        have hval' : (((pre ++ [a]) ++ rest).getD best d).packet.seq_num = bseq := by
          rw [← hassoc]; exact hval
        have hmin' : ∀ e ∈ pre ++ [a], bseq ≤ e.packet.seq_num := by
          intro e he
          rcases List.mem_append.mp he with h | h
          · exact hmin e h
          · simp only [List.mem_singleton] at h
            subst h
            omega
        have := ih (pre ++ [a]) best bseq hb' hval' hmin'
        rw [hlen1] at this
        rw [hassoc]
        exact this

/-- `minSeqIdx` picks an in-range index whose entry has minimal `seq_num`. -/
lemma minSeqIdx_spec (e0 : UnackedEntry) (rest : List UnackedEntry) :
    minSeqIdx (e0 :: rest) < (e0 :: rest).length ∧
    ∀ e ∈ e0 :: rest,
      ((e0 :: rest).getD (minSeqIdx (e0 :: rest)) e0).packet.seq_num ≤
        e.packet.seq_num := by
  have h := minSeqIdxAux_spec e0 rest [e0] 0 e0.packet.seq_num (by simp) (by simp)
    (by simp)
  simpa [minSeqIdx] using h

/-- `handleAckCumulative` fires no `on_retransmit_needed` callback. -/
lemma handleAckCumulative_no_retx {σ : Type} (A : CongAlg σ) (now : ℚ) (ackNum : Nat)
    (s : ConnState σ) (q : TCPPacket) :
    ConnEvent.retransmitNeeded q ∉ (handleAckCumulative A now ackNum s).2.2 := by
  obtain ⟨hfil, v, w, hs1⟩ := removeAcked_spec now ackNum (σ := σ) s.unacked_packets s
  unfold handleAckCumulative
  dsimp only
  rw [hfil, hs1]
  intro hmem
  rw [List.mem_append] at hmem
  rcases hmem with h | h
  · revert h
    split_ifs <;> simp
  · exact drainLoop_no_retx A now _ _ _ q h

/-- `handle_ack` can only fire `on_retransmit_needed` when the incremented
duplicate count is exactly 3. -/
lemma handleAck_no_retx_of_ne3 {σ : Type} (A : CongAlg σ) (now : ℚ) (ackNum : Nat)
    (s : ConnState σ) (hcnt : s.duplicate_ack_count ackNum + 1 ≠ 3) (q : TCPPacket) :
    ConnEvent.retransmitNeeded q ∉ (handleAck A now ackNum s).2.2 := by
  unfold handleAck
  dsimp only
  by_cases hdup : ackNum = s.last_ack_num ∧ 0 < s.last_ack_num
  · rw [if_pos hdup, if_neg hcnt]
    exact handleAckCumulative_no_retx A now ackNum _ q
  · rw [if_neg hdup]
    split_ifs <;> exact handleAckCumulative_no_retx A now ackNum _ q

/-! ### Claim C2 -/

/-- Claim C2 (confirmed).  When the duplicate counter for `ack_num` reaches
exactly 3 and the unacked table is non-empty, `handle_ack` bumps the
retransmit count and send time of the first entry with minimal `seq_num`
(in place, removing nothing), applies `on_packet_loss("fast_retransmit")`,
resets the counter for that ack to 0, increments `duplicate_acks`, fires
`on_retransmit_needed` with that packet exactly when the callback is
attached, and returns `None`; the next two duplicate ACKs for the same number
fire no retransmission, so the entry is retransmitted exactly once per burst
of three. -/
theorem c2_fast_retransmit {σ : Type} (A : CongAlg σ) (now : ℚ) (ackNum : Nat)
    (s : ConnState σ) (e0 : UnackedEntry) (rest : List UnackedEntry)
    (h1 : ackNum = s.last_ack_num) (h2 : 0 < s.last_ack_num)
    (h3 : s.duplicate_ack_count ackNum = 2)
    (h4 : s.unacked_packets = e0 :: rest) :
    (handleAck A now ackNum s).1 = none ∧
    (handleAck A now ackNum s).2.1.unacked_packets =
      (e0 :: rest).set (minSeqIdx (e0 :: rest))
        { (e0 :: rest).getD (minSeqIdx (e0 :: rest)) e0 with
          retransmit_count :=
            ((e0 :: rest).getD (minSeqIdx (e0 :: rest)) e0).retransmit_count + 1,
          send_time := now } ∧
    (handleAck A now ackNum s).2.1.unacked_packets.length =
      s.unacked_packets.length ∧
    (handleAck A now ackNum s).2.1.duplicate_ack_count ackNum = 0 ∧
    (handleAck A now ackNum s).2.1.stats_duplicate_acks =
      s.stats_duplicate_acks + 1 ∧
    (handleAck A now ackNum s).2.1.alg = A.onLoss LossType.fast_retransmit s.alg ∧
    (handleAck A now ackNum s).2.1.congestion_window =
      A.cwnd (A.onLoss LossType.fast_retransmit s.alg) ∧
    (handleAck A now ackNum s).2.1.ssthresh =
      A.ssthresh (A.onLoss LossType.fast_retransmit s.alg) ∧
    (handleAck A now ackNum s).2.1.congestion_state =
      A.phase (A.onLoss LossType.fast_retransmit s.alg) ∧
    (∀ e ∈ e0 :: rest,
      ((e0 :: rest).getD (minSeqIdx (e0 :: rest)) e0).packet.seq_num ≤
        e.packet.seq_num) ∧
    (ConnEvent.retransmitNeeded
        ((e0 :: rest).getD (minSeqIdx (e0 :: rest)) e0).packet ∈
      (handleAck A now ackNum s).2.2 ↔ s.cb_retransmit_needed = true) ∧
    (∀ (now2 : ℚ) (q : TCPPacket),
      ConnEvent.retransmitNeeded q ∉
        (handleAck A now2 ackNum (handleAck A now ackNum s).2.1).2.2) ∧
    (∀ (now2 now3 : ℚ) (q : TCPPacket),
      ConnEvent.retransmitNeeded q ∉
        (handleAck A now3 ackNum
          (handleAck A now2 ackNum (handleAck A now ackNum s).2.1).2.1).2.2) := by
  have hdup : ackNum = s.last_ack_num ∧ 0 < s.last_ack_num := ⟨h1, h2⟩
  have hcnt : s.duplicate_ack_count ackNum + 1 = 3 := by omega
  have hdup0 : (handleAck A now ackNum s).2.1.duplicate_ack_count ackNum = 0 := by
    rw [handleAck_dup_map]
    rw [if_pos hdup, if_pos ⟨hcnt, by rw [h4]; exact List.cons_ne_nil _ _⟩]
    exact Function.update_same _ _ _
  have hlast1 : (handleAck A now ackNum s).2.1.last_ack_num = s.last_ack_num :=
    handleAck_lastack_dup A now ackNum s hdup
  have h12 : ∀ (now2 : ℚ) (q : TCPPacket),
      ConnEvent.retransmitNeeded q ∉
        (handleAck A now2 ackNum (handleAck A now ackNum s).2.1).2.2 := by
    intro now2 q
    exact handleAck_no_retx_of_ne3 A now2 ackNum _ (by rw [hdup0]; decide) q
  have hdup1 : ∀ now2 : ℚ,
      (handleAck A now2 ackNum (handleAck A now ackNum s).2.1).2.1.duplicate_ack_count
        ackNum = 1 := by
    intro now2
    rw [handleAck_dup_map]
    have hc : ackNum = (handleAck A now ackNum s).2.1.last_ack_num ∧
        0 < (handleAck A now ackNum s).2.1.last_ack_num := by
      rw [hlast1]; exact ⟨h1, h2⟩
    rw [if_pos hc, if_neg (by rw [hdup0]; simp)]
    rw [hdup0]
    exact Function.update_same _ _ _
  have h13 : ∀ (now2 now3 : ℚ) (q : TCPPacket),
      ConnEvent.retransmitNeeded q ∉
        (handleAck A now3 ackNum
          (handleAck A now2 ackNum (handleAck A now ackNum s).2.1).2.1).2.2 := by
    intro now2 now3 q
    exact handleAck_no_retx_of_ne3 A now3 ackNum _ (by rw [hdup1 now2]; decide) q
  have hstats : (handleAck A now ackNum s).2.1.stats_duplicate_acks =
      s.stats_duplicate_acks + 1 := by
    rw [handleAck_stats_dup, if_pos hdup]
  have hcore : (handleAck A now ackNum s).1 = none ∧
      (handleAck A now ackNum s).2.1.unacked_packets =
        (e0 :: rest).set (minSeqIdx (e0 :: rest))
          { (e0 :: rest).getD (minSeqIdx (e0 :: rest)) e0 with
            retransmit_count :=
              ((e0 :: rest).getD (minSeqIdx (e0 :: rest)) e0).retransmit_count + 1,
            send_time := now } ∧
      (handleAck A now ackNum s).2.1.alg = A.onLoss LossType.fast_retransmit s.alg ∧
      (handleAck A now ackNum s).2.1.congestion_window =
        A.cwnd (A.onLoss LossType.fast_retransmit s.alg) ∧
      (handleAck A now ackNum s).2.1.ssthresh =
        A.ssthresh (A.onLoss LossType.fast_retransmit s.alg) ∧
      (handleAck A now ackNum s).2.1.congestion_state =
        A.phase (A.onLoss LossType.fast_retransmit s.alg) ∧
      (ConnEvent.retransmitNeeded
          ((e0 :: rest).getD (minSeqIdx (e0 :: rest)) e0).packet ∈
        (handleAck A now ackNum s).2.2 ↔ s.cb_retransmit_needed = true) := by
    unfold handleAck
    dsimp only
    rw [if_pos hdup, if_pos hcnt, h4]
    dsimp only
    refine ⟨rfl, rfl, rfl, rfl, rfl, rfl, ?_⟩
    by_cases hm : s.cb_metric_change <;> by_cases hr : s.cb_retransmit_needed <;>
      simp [hm, hr]
  exact ⟨hcore.1, hcore.2.1,
    by rw [hcore.2.1, h4]; simp,
    hdup0, hstats, hcore.2.2.1, hcore.2.2.2.1, hcore.2.2.2.2.1, hcore.2.2.2.2.2.1,
    (minSeqIdx_spec e0 rest).2, hcore.2.2.2.2.2.2, h12, h13⟩

/-- Two outstanding segments, the one with the smaller sequence second. -/
def c2entryA : UnackedEntry :=
  { packet := { source_port := 5000, dest_port := 8000, seq_num := 100, ack_num := 0,
                flags := 0x18, window_size := 65535,
                data := [1, 2, 3, 4, 5, 6, 7, 8, 9, 10], timestamp := 0 },
    send_time := 0, retransmit_count := 0, base_rto := 3, first_send_time := some 0 }

def c2entryB : UnackedEntry :=
  { packet := { source_port := 5000, dest_port := 8000, seq_num := 110, ack_num := 0,
                flags := 0x18, window_size := 65535,
                data := [1, 2, 3, 4, 5, 6, 7, 8, 9, 10], timestamp := 0 },
    send_time := 0, retransmit_count := 0, base_rto := 3, first_send_time := some 0 }

/-- A connection that has already counted two duplicate ACKs for 100. -/
def c2state : ConnState RenoState :=
  { baseConn with
    last_ack_num := 100,
    duplicate_ack_count := fun n => if n = 100 then 2 else 0,
    unacked_packets := [c2entryB, c2entryA] }

/-- Claim C2 witness: the third duplicate ACK at a concrete state returns
`None` and resets the duplicate counter. -/
theorem c2_witness :
    (handleAck renoCA 7 100 c2state).1 = none ∧
    (handleAck renoCA 7 100 c2state).2.1.duplicate_ack_count 100 = 0 :=
  ⟨(c2_fast_retransmit renoCA 7 100 c2state c2entryB [c2entryA] rfl (by decide)
      (by decide) rfl).1,
   (c2_fast_retransmit renoCA 7 100 c2state c2entryB [c2entryA] rfl (by decide)
      (by decide) rfl).2.2.2.1⟩

lemma setState_state {σ : Type} (A : CongAlg σ) (now : ℚ) (ns : TCPState)
    (s : ConnState σ) (h : s.state ≠ ns) : (setState A now ns s).1.state = ns := by
  unfold setState
  rw [if_neg h]
  dsimp only
  split_ifs <;> rfl

lemma setState_handshake {σ : Type} (A : CongAlg σ) (now : ℚ) (ns : TCPState)
    (s : ConnState σ) :
    (setState A now ns s).1.handshake_unacked = s.handshake_unacked := by
  unfold setState
  split_ifs with h
  · rfl
  · dsimp only
    split_ifs <;> rfl

/-! ### Claim C7 -/

set_option maxHeartbeats 1000000 in
/-- Claim C7 (confirmed).  A cookie generated in time slot `t` validates while
the current slot is `t` or `t + 1` and fails at every slot `tv ≥ t + 2`
(given that the truncated HMAC digests of slots `tv` and `tv - 1` differ from
the digest of slot `t`, which the abstract hash hypotheses express); in
SYN_RECEIVED, a pure ACK with a valid cookie
clears the handshake table and moves the connection to ESTABLISHED with no
reply, while an invalid cookie yields no reply and leaves the state (and the
handshake table) unchanged. -/
theorem c7_syn_cookie {σ : Type} :
    (∀ (H : HashFn) (s : ConnState σ) (isn sp dp : Nat) (t : ℤ) (now1 : ℚ),
      cookieTimeSlot s now1 = t →
      validateSynCookie H now1 s (generateSynCookie H s isn sp dp t : ℤ)
        isn sp dp = true) ∧
    (∀ (H : HashFn) (s : ConnState σ) (isn sp dp : Nat) (t : ℤ) (now2 : ℚ),
      cookieTimeSlot s now2 = t + 1 →
      validateSynCookie H now2 s (generateSynCookie H s isn sp dp t : ℤ)
        isn sp dp = true) ∧
    (∀ (H : HashFn) (s : ConnState σ) (isn sp dp : Nat) (t tv : ℤ) (now3 : ℚ),
      cookieTimeSlot s now3 = tv → t + 2 ≤ tv →
      H s.cookie_secret isn sp dp tv ≠ H s.cookie_secret isn sp dp t →
      H s.cookie_secret isn sp dp (tv - 1) ≠ H s.cookie_secret isn sp dp t →
      validateSynCookie H now3 s (generateSynCookie H s isn sp dp t : ℤ)
        isn sp dp = false) ∧
    (∀ (H : HashFn) (A : CongAlg σ) (now : ℚ) (p : TCPPacket) (s : ConnState σ),
      s.state = TCPState.SYN_RECEIVED → p.hasFlag FLAG_ACK = true →
      p.hasFlag FLAG_SYN = false → p.data = [] →
      (validateSynCookie H now s ((p.ack_num : ℤ) - 1) s.remote_seq_num
          p.source_port p.dest_port = true →
        (processPacket H A now p s).2.1.state = TCPState.ESTABLISHED ∧
        (processPacket H A now p s).2.1.handshake_unacked = [] ∧
        (processPacket H A now p s).1 = none) ∧
      (validateSynCookie H now s ((p.ack_num : ℤ) - 1) s.remote_seq_num
          p.source_port p.dest_port = false →
        (processPacket H A now p s).2.1.state = TCPState.SYN_RECEIVED ∧
        (processPacket H A now p s).2.1.handshake_unacked = s.handshake_unacked ∧
        (processPacket H A now p s).1 = none)) := by
  refine ⟨?_, ?_, ?_, ?_⟩
  · intro H s isn sp dp t now1 hslot
    unfold validateSynCookie
    rw [hslot]
    simp
  · intro H s isn sp dp t now2 hslot
    unfold validateSynCookie
    rw [hslot]
    by_cases hcoll :
        (generateSynCookie H s isn sp dp t : ℤ) =
          (generateSynCookie H s isn sp dp (t + 1) : ℤ)
    · simp [hcoll]
    · simp only [add_sub_cancel_right]
      rw [if_neg hcoll]
      simp
  · intro H s isn sp dp t tv now3 hslot hge hne2 hne1
    unfold validateSynCookie
    rw [hslot]
    have h2 : ¬ (generateSynCookie H s isn sp dp t : ℤ) =
        (generateSynCookie H s isn sp dp tv : ℤ) := by
      intro h
      exact hne2 (by exact_mod_cast h.symm)
    have h1 : ¬ (generateSynCookie H s isn sp dp t : ℤ) =
        (generateSynCookie H s isn sp dp (tv - 1) : ℤ) := by
      intro h
      exact hne1 (by exact_mod_cast h.symm)
    rw [if_neg h2, if_neg h1]
  · intro H A now p s hstate hack hsyn hdata
    have hcond : ¬ (p.hasFlag FLAG_SYN = true ∨ 0 < p.data.length) := by
      simp [hsyn, hdata]
    constructor
    · intro hval
      unfold processPacket
      simp only [if_neg hcond, if_pos hack, hstate]
      split_ifs with hv
      · refine ⟨?_, ?_, rfl⟩
        · rw [setState_state]
          simp [hstate]
        · rw [setState_handshake]
      · exact absurd hval hv
    · intro hval
      unfold processPacket
      simp only [if_neg hcond, if_pos hack, hstate]
      split_ifs with hv
      · have h' : validateSynCookie H now s ((p.ack_num : ℤ) - 1) s.remote_seq_num
            p.source_port p.dest_port = true := hv
        rw [hval] at h'
        cases h'
      · refine ⟨?_, rfl, rfl⟩
        simp [hstate]

/-! ### Claim C8 -/

lemma transmitPacket_no_arrived {δ : Type} (u now : ℚ) (p : TCPPacket) (dest : δ)
    (L : LinkState δ) :
    ((transmitPacket u now p dest L).2).filter isArrivedEv = [] := by
  unfold transmitPacket
  split_ifs <;> rfl

lemma processQueueStep_arrived {w δ : Type}
    (recv : w → δ → TCPPacket → w × Option TCPPacket)
    (lookup : δ → Option δ) (us : Nat → ℚ) (now : ℚ)
    (acc : w × LinkState δ × List (LinkEv δ) × Nat) (e : LinkEntry δ) :
    ((processQueueStep recv lookup us now acc e).2.2.1).filter isArrivedEv
      = acc.2.2.1.filter isArrivedEv ++ [LinkEv.arrived e.packet e.dest] := by
  unfold processQueueStep
  dsimp only
  rcases h1 : (recv acc.1 e.dest e.packet).2 with _ | r <;>
    rcases h2 : lookup e.dest with _ | sender <;>
      simp [h1, h2, List.filter_append, isArrivedEv, transmitPacket_no_arrived]

lemma processQueue_foldl_arrived {w δ : Type}
    (recv : w → δ → TCPPacket → w × Option TCPPacket)
    (lookup : δ → Option δ) (us : Nat → ℚ) (now : ℚ) :
    ∀ (l : List (LinkEntry δ)) (acc : w × LinkState δ × List (LinkEv δ) × Nat),
      ((l.foldl (processQueueStep recv lookup us now) acc).2.2.1).filter isArrivedEv
        = acc.2.2.1.filter isArrivedEv
            ++ l.map (fun e => LinkEv.arrived e.packet e.dest) := by
  intro l
  induction l with
  | nil => intro acc; simp
  | cons e rest ih =>
      intro acc
      simp only [List.foldl_cons, List.map_cons]
      rw [ih, processQueueStep_arrived]
      simp

/-- Claim C8 (corrected).  In one `process_queue` call the due entries
(`arrival_time ≤ now`) are delivered in queue (submission) order: the
`ARRIVED` events, in order, are exactly the due entries in the order they
occupy `packet_queue`.  The scheduled arrival times play no role in the
ordering, so delivery is NOT in non-decreasing scheduled-arrival order
(see the counterexample). -/
theorem c8_delivery_order {w δ : Type}
    (recv : w → δ → TCPPacket → w × Option TCPPacket)
    (lookup : δ → Option δ) (us : Nat → ℚ) (now : ℚ) (world : w)
    (L : LinkState δ) :
    ((processQueue recv lookup us now world L).2.2).filter isArrivedEv
      = (L.packet_queue.filter (fun e => decide (e.arrival_time ≤ now))).map
          (fun e => LinkEv.arrived e.packet e.dest) := by
  unfold processQueue
  dsimp only
  rw [processQueue_foldl_arrived]
  simp

def c8pktA : TCPPacket :=
  { source_port := 1, dest_port := 2, seq_num := 0, ack_num := 0, flags := 0,
    window_size := 1000, data := [], timestamp := 0 }

def c8pktB : TCPPacket :=
  { c8pktA with seq_num := 5 }

def c8entryA : LinkEntry Nat :=
  { packet := c8pktA, arrival_time := 30, dest := 0 }

def c8entryB : LinkEntry Nat :=
  { packet := c8pktB, arrival_time := 3, dest := 1 }

def c8link : LinkState Nat :=
  { delay := 1, loss_rate := 0, bandwidth := 1000,
    packet_queue := [c8entryA, c8entryB] }

/-- Both entries are due at `now = 100`, entry B has the strictly earlier
scheduled arrival (3 < 30), yet entry A (submitted first) is delivered
first — refuting non-decreasing scheduled-arrival delivery order. -/
theorem c8_counterexample :
    (processQueue (fun (u : Unit) (_ : Nat) (_ : TCPPacket) => (u, none))
        (fun (_ : Nat) => (none : Option Nat)) (fun _ => 0) 100 () c8link).2.2 =
      [LinkEv.arrived c8pktA 0, LinkEv.arrived c8pktB 1] ∧
    c8entryB.arrival_time < c8entryA.arrival_time ∧
    c8entryA.arrival_time ≤ 100 ∧ c8entryB.arrival_time ≤ 100 := by
  refine ⟨rfl, ?_, ?_, ?_⟩ <;> norm_num [c8entryA, c8entryB]

end TCPSpec
